import Mathlib

/-!
Verification of the QSB DID example client (`src/app` of the repository).

Byte strings are modelled as `List Nat` (each element a byte value), Python
exceptions as `Except` / `Option` results.  Pure Python functions become Lean
functions translated clause by clause from the source files
`main.py`, `did_utils.py`, `did_resolver.py` and `did_store.py`.
External library primitives (BLAKE2b, base58, PBKDF2, Fernet, lossy UTF-8
decoding) are not part of the repository; they enter the development as
explicit function parameters, constrained only where a property needs their
documented contract.
-/

/-- Helper: the byte values of an ASCII string literal, modelling a Python
`bytes` literal such as `b"QSB_DID_ADD_KEY"`. -/
def ascii (s : String) : List Nat := s.data.map Char.toNat

/-- Errors raised by the codec layer of `main.py`:
`ValueError("Compact SCALE length too large")` is `EncodingTooLarge`,
the `KeyError` escaping `KEY_ROLE_INDEX[role]` is `UnknownRole`. -/
inductive CodecError
  | EncodingTooLarge
  | UnknownRole
deriving DecidableEq

/-- `int.to_bytes(n, "little")`: the `n` little-endian base-256 digits of `v`. -/
def toBytesLE : Nat → Nat → List Nat
  | 0, _ => []
  | n + 1, v => (v % 256) :: toBytesLE n (v / 256)

/-- `_scale_compact_u32` from `main.py` (lines 64-73), translated branch by
branch; the raised `ValueError` becomes `.error .EncodingTooLarge`. -/
def scale_compact_u32 (value : Nat) : Except CodecError (List Nat) :=
  if value < 1 <<< 6 then
    .ok [(value <<< 2) &&& 0xFF]
  else if value < 1 <<< 14 then
    .ok (toBytesLE 2 ((value <<< 2) ||| 1))
  else if value < 1 <<< 30 then
    .ok (toBytesLE 4 ((value <<< 2) ||| 2))
  else
    .error .EncodingTooLarge

/-- `_scale_vec_u8` from `main.py` (lines 76-77). -/
def scale_vec_u8 (data : List Nat) : Except CodecError (List Nat) := do
  let lenBytes ← scale_compact_u32 data.length
  return lenBytes ++ data

/-- `KEY_ROLE_INDEX` from `main.py` (lines 55-61), as a partial lookup:
`none` models a `KeyError` on subscripting. -/
def KEY_ROLE_INDEX (role : String) : Option Nat :=
  if role = "Authentication" then some 0
  else if role = "AssertionMethod" then some 1
  else if role = "KeyAgreement" then some 2
  else if role = "CapabilityInvocation" then some 3
  else if role = "CapabilityDelegation" then some 4
  else none

/-- The role-code loop inside `_scale_roles` (`main.py` lines 102-104): one
code byte per role, failing on the first unknown role name. -/
def roleCodes : List String → Except CodecError (List Nat)
  | [] => .ok []
  | r :: rs =>
    match KEY_ROLE_INDEX r, roleCodes rs with
    | some i, .ok tail => .ok (i :: tail)
    | some _, .error e => .error e
    | none, _ => .error .UnknownRole

/-- `_scale_roles` from `main.py` (lines 100-105): compact length of the role
list, then one code byte per role. -/
def scale_roles (roles : List String) : Except CodecError (List Nat) := do
  let lenBytes ← scale_compact_u32 roles.length
  let codes ← roleCodes roles
  return lenBytes ++ codes

/-! ### Operation tags (`main.py` lines 38-48)

The Python constants are named `SCHEMA_PREFIX` and `DID_*_PREFIX`; they are
rendered here with a `_TAG` suffix instead. -/

/-- `SCHEMA_PREFIX` in `main.py`. -/
def SCHEMA_TAG : List Nat := ascii "QSB_SCHEMA"
/-- `DID_CREATE_PREFIX` in `main.py`. -/
def DID_CREATE_TAG : List Nat := ascii "QSB_DID_CREATE"
/-- `DID_ADD_KEY_PREFIX` in `main.py`. -/
def DID_ADD_KEY_TAG : List Nat := ascii "QSB_DID_ADD_KEY"
/-- `DID_REVOKE_KEY_PREFIX` in `main.py`. -/
def DID_REVOKE_KEY_TAG : List Nat := ascii "QSB_DID_REVOKE_KEY"
/-- `DID_DEACTIVATE_PREFIX` in `main.py`. -/
def DID_DEACTIVATE_TAG : List Nat := ascii "QSB_DID_DEACTIVATE"
/-- `DID_ADD_SERVICE_PREFIX` in `main.py`. -/
def DID_ADD_SERVICE_TAG : List Nat := ascii "QSB_DID_ADD_SERVICE"
/-- `DID_REMOVE_SERVICE_PREFIX` in `main.py`. -/
def DID_REMOVE_SERVICE_TAG : List Nat := ascii "QSB_DID_REMOVE_SERVICE"
/-- `DID_SET_METADATA_PREFIX` in `main.py`. -/
def DID_SET_METADATA_TAG : List Nat := ascii "QSB_DID_SET_METADATA"
/-- `DID_REMOVE_METADATA_PREFIX` in `main.py`. -/
def DID_REMOVE_METADATA_TAG : List Nat := ascii "QSB_DID_REMOVE_METADATA"
/-- `DID_ROTATE_KEY_PREFIX` in `main.py`. -/
def DID_ROTATE_KEY_TAG : List Nat := ascii "QSB_DID_ROTATE_KEY"
/-- `DID_UPDATE_ROLES_PREFIX` in `main.py`. -/
def DID_UPDATE_ROLES_TAG : List Nat := ascii "QSB_DID_UPDATE_ROLES"

/-! ### Payload builders (`main.py` lines 80-149 and line 374) -/

/-- `build_create_did_payload` (`main.py` lines 80-81). -/
def build_create_did_payload (public_key : List Nat) : Except CodecError (List Nat) := do
  let pk ← scale_vec_u8 public_key
  return DID_CREATE_TAG ++ pk

/-- `build_add_service_payload` (`main.py` lines 84-93). -/
def build_add_service_payload (did_id service_id service_type endpoint : List Nat) :
    Except CodecError (List Nat) := do
  let sid ← scale_vec_u8 service_id
  let sty ← scale_vec_u8 service_type
  let ep ← scale_vec_u8 endpoint
  let did ← scale_vec_u8 did_id
  return DID_ADD_SERVICE_TAG ++ did ++ (sid ++ sty ++ ep)

/-- `build_remove_service_payload` (`main.py` lines 96-97). -/
def build_remove_service_payload (did_id service_id : List Nat) :
    Except CodecError (List Nat) := do
  let did ← scale_vec_u8 did_id
  let sid ← scale_vec_u8 service_id
  return DID_REMOVE_SERVICE_TAG ++ did ++ sid

/-- `build_add_key_payload` (`main.py` lines 108-114). -/
def build_add_key_payload (did_id public_key : List Nat) (roles : List String) :
    Except CodecError (List Nat) := do
  let did ← scale_vec_u8 did_id
  let pk ← scale_vec_u8 public_key
  let rs ← scale_roles roles
  return DID_ADD_KEY_TAG ++ did ++ pk ++ rs

/-- `build_revoke_key_payload` (`main.py` lines 117-118). -/
def build_revoke_key_payload (did_id public_key : List Nat) :
    Except CodecError (List Nat) := do
  let did ← scale_vec_u8 did_id
  let pk ← scale_vec_u8 public_key
  return DID_REVOKE_KEY_TAG ++ did ++ pk

/-- `build_set_metadata_payload` (`main.py` lines 121-122). -/
def build_set_metadata_payload (did_id key value : List Nat) :
    Except CodecError (List Nat) := do
  let did ← scale_vec_u8 did_id
  let k ← scale_vec_u8 key
  let v ← scale_vec_u8 value
  return DID_SET_METADATA_TAG ++ did ++ k ++ v

/-- `build_remove_metadata_payload` (`main.py` lines 125-126). -/
def build_remove_metadata_payload (did_id key : List Nat) :
    Except CodecError (List Nat) := do
  let did ← scale_vec_u8 did_id
  let k ← scale_vec_u8 key
  return DID_REMOVE_METADATA_TAG ++ did ++ k

/-- `build_rotate_key_payload` (`main.py` lines 129-141). -/
def build_rotate_key_payload (did_id old_public_key new_public_key : List Nat)
    (roles : List String) : Except CodecError (List Nat) := do
  let did ← scale_vec_u8 did_id
  let old ← scale_vec_u8 old_public_key
  let new ← scale_vec_u8 new_public_key
  let rs ← scale_roles roles
  return DID_ROTATE_KEY_TAG ++ did ++ old ++ new ++ rs

/-- `build_update_roles_payload` (`main.py` lines 144-145). -/
def build_update_roles_payload (did_id public_key : List Nat) (roles : List String) :
    Except CodecError (List Nat) := do
  let did ← scale_vec_u8 did_id
  let pk ← scale_vec_u8 public_key
  let rs ← scale_roles roles
  return DID_UPDATE_ROLES_TAG ++ did ++ pk ++ rs

/-- `build_deactivate_did_payload` (`main.py` lines 148-149). -/
def build_deactivate_did_payload (did_id : List Nat) : Except CodecError (List Nat) := do
  let did ← scale_vec_u8 did_id
  return DID_DEACTIVATE_TAG ++ did

/-- The schema signing payload `SCHEMA_PREFIX + schema_json` built inline at
`main.py` line 374 (the schema bytes are appended raw, with no length word). -/
def schema_sign_payload (schema_json : List Nat) : Except CodecError (List Nat) :=
  .ok (SCHEMA_TAG ++ schema_json)

/-! ### Identifier derivation (`did_utils.py`)

`hashlib.blake2b` and `base58.b58encode` are external libraries; they appear
as explicit function parameters `blake2b32` (32-byte digest) and `b58e`. -/

/-- One hex digit's value; `none` models the `ValueError` that
`bytes.fromhex` raises on a non-hex character. -/
def hexDigitVal (c : Char) : Option Nat :=
  if '0' ≤ c ∧ c ≤ '9' then some (c.toNat - 48)
  else if 'a' ≤ c ∧ c ≤ 'f' then some (c.toNat - 87)
  else if 'A' ≤ c ∧ c ≤ 'F' then some (c.toNat - 55)
  else none

/-- Pairs of hex digits to bytes; odd length or a bad digit models the
`ValueError` from `bytes.fromhex`. -/
def hexBytes : List Char → Option (List Nat)
  | [] => some []
  | [_] => none
  | c1 :: c2 :: rest => do
    let hi ← hexDigitVal c1
    let lo ← hexDigitVal c2
    let tail ← hexBytes rest
    return (16 * hi + lo) :: tail

/-- `bytes.fromhex` on a whole string (space skipping is not modelled; the
repository only feeds it plain hex strings). -/
def bytes_fromhex (s : String) : Option (List Nat) := hexBytes s.data

/-- `str.removeprefix("0x")` as used in `did_utils.py`. -/
def strip0x (s : String) : String :=
  if s.data.take 2 = ['0', 'x'] then String.mk (s.data.drop 2) else s

/-- `derive_did_id` from `did_utils.py` (lines 5-9), with the BLAKE2b digest
and base58 encoder as parameters. -/
def derive_did_id (blake2b32 : List Nat → List Nat) (b58e : List Nat → String)
    (genesis_hash_hex : String) (public_key : List Nat) : Option String := do
  let genesis_bytes ← bytes_fromhex (strip0x genesis_hash_hex)
  let material := ascii "QSB_DID" ++ genesis_bytes ++ public_key
  return b58e (blake2b32 material)

/-- `derive_schema_id` from `did_utils.py` (lines 12-17). -/
def derive_schema_id (blake2b32 : List Nat → List Nat) (b58e : List Nat → String)
    (genesis_hash_hex : String) (schema_json : List Nat) : Option String := do
  let genesis_bytes ← bytes_fromhex (strip0x genesis_hash_hex)
  let material := ascii "QSB_SCHEMA" ++ genesis_bytes ++ schema_json
  return "did:qsb:schema:" ++ b58e (blake2b32 material)

/-! ### Document resolver (`did_resolver.py`)

Raw ledger records are Python dicts; a missing dict entry is an `Option`
that is `none`.  `did_to_document` subscripts required fields directly
(`service["id"]`, `key["public_key"]`, ...), so a missing required field
raises `KeyError`; that is the `.error ()` outcome below.  The lossy UTF-8
decoder (`errors="replace"`) and base58 are external, passed as `utf8d`
and `b58e`. -/

/-- One entry of the raw `services` list. -/
structure RawService where
  id : Option (List Nat)
  service_type : Option (List Nat)
  endpoint : Option (List Nat)
deriving DecidableEq

/-- One entry of the raw `metadata` list. -/
structure RawMetaItem where
  key : Option (List Nat)
  value : Option (List Nat)
deriving DecidableEq

/-- One entry of the raw `keys` list. -/
structure RawKey where
  public_key : Option (List Nat)
  revoked : Option Bool
  roles : Option (List String)
deriving DecidableEq

/-- The raw DID record dict returned under `"result"`. -/
structure RawRecord where
  version : Option Nat
  deactivated : Option Bool
  keys : Option (List RawKey)
  services : Option (List RawService)
  metadata : Option (List RawMetaItem)
deriving DecidableEq

/-- Python truthiness of the record dict: a dict is truthy iff non-empty. -/
def RawRecord.isTruthy (r : RawRecord) : Bool :=
  r.version.isSome || r.deactivated.isSome || r.keys.isSome ||
    r.services.isSome || r.metadata.isSome

/-- A resolved service entry (decoded strings). -/
structure ServiceEntry where
  id : String
  service_type : String
  endpoint : String
deriving DecidableEq

/-- A resolved metadata entry (decoded strings). -/
structure MetaEntry where
  key : String
  value : String
deriving DecidableEq

/-- A `verificationMethod` entry of the resolved document. -/
structure VerificationMethod where
  id : String
  type : String
  controller : String
  publicKeyMultibase : String
  revoked : Bool
  roles : List String
deriving DecidableEq

/-- The resolved DID document (the dict built in `did_to_document`). -/
structure DIDDocument where
  context : List String
  id : String
  version : Option Nat
  deactivated : Option Bool
  verificationMethod : List VerificationMethod
  authentication : List String
  assertionMethod : List String
  keyAgreement : List String
  capabilityInvocation : List String
  capabilityDelegation : List String
  service : List ServiceEntry
  metadata : List MetaEntry
deriving DecidableEq

/-- The five relationship arrays, i.e. the values of `role_map` in
`did_to_document`. -/
inductive RoleField
  | authentication
  | assertionMethod
  | keyAgreement
  | capabilityInvocation
  | capabilityDelegation
deriving DecidableEq

/-- `role_map` from `did_to_document` (lines 5-11 of `did_resolver.py`). -/
def role_map (role : String) : Option RoleField :=
  if role = "Authentication" then some .authentication
  else if role = "AssertionMethod" then some .assertionMethod
  else if role = "KeyAgreement" then some .keyAgreement
  else if role = "CapabilityInvocation" then some .capabilityInvocation
  else if role = "CapabilityDelegation" then some .capabilityDelegation
  else none

/-- `doc[field].append(key_id)` for one relationship array. -/
def pushRole (doc : DIDDocument) (f : RoleField) (kid : String) : DIDDocument :=
  match f with
  | .authentication => { doc with authentication := doc.authentication ++ [kid] }
  | .assertionMethod => { doc with assertionMethod := doc.assertionMethod ++ [kid] }
  | .keyAgreement => { doc with keyAgreement := doc.keyAgreement ++ [kid] }
  | .capabilityInvocation =>
      { doc with capabilityInvocation := doc.capabilityInvocation ++ [kid] }
  | .capabilityDelegation =>
      { doc with capabilityDelegation := doc.capabilityDelegation ++ [kid] }

/-- Projection of the relationship array named by `f`. -/
def relProj (f : RoleField) (doc : DIDDocument) : List String :=
  match f with
  | .authentication => doc.authentication
  | .assertionMethod => doc.assertionMethod
  | .keyAgreement => doc.keyAgreement
  | .capabilityInvocation => doc.capabilityInvocation
  | .capabilityDelegation => doc.capabilityDelegation

/-- The inner loop `for role in key.get("roles", [])` of `did_to_document`
(lines 58-61): unmapped role names are skipped. -/
def addRoles (kid : String) : DIDDocument → List String → DIDDocument
  | doc, [] => doc
  | doc, ro :: ros =>
    match role_map ro with
    | some f => addRoles kid (pushRole doc f kid) ros
    | none => addRoles kid doc ros

/-- The key id string `f"{did}#keys-{index}"`. -/
def keyId (did : String) (index : Nat) : String :=
  did ++ "#keys-" ++ Nat.repr index

/-- The outer key loop of `did_to_document` (lines 45-61): 1-based
enumeration, one verification method per raw key, roles fanned out to the
relationship arrays.  A key without `"public_key"` raises `KeyError`. -/
def addKeys (utf8d b58e : List Nat → String) (did : String) :
    Nat → List RawKey → DIDDocument → Except Unit DIDDocument
  | _, [], doc => .ok doc
  | index, k :: ks, doc =>
    match k.public_key with
    | none => .error ()
    | some pk =>
      let kid := keyId did index
      let vm : VerificationMethod :=
        { id := kid
          type := "ML-DSA-44"
          controller := did
          publicKeyMultibase := "z" ++ b58e pk
          revoked := k.revoked.getD false
          roles := k.roles.getD [] }
      let doc' := { doc with verificationMethod := doc.verificationMethod ++ [vm] }
      addKeys utf8d b58e did (index + 1) ks (addRoles kid doc' (k.roles.getD []))

/-- A Python `for` loop that builds a list of processed entries, aborting on
the first entry whose processing raises. -/
def mapEntries {A B : Type} (f : A -> Except Unit B) : List A -> Except Unit (List B)
  | [] => .ok []
  | x :: xs => do
    let y <- f x
    let ys <- mapEntries f xs
    return y :: ys

/-- One iteration of the `services` loop (lines 13-20): every field is
subscripted directly, so a missing one raises `KeyError`. -/
def serviceEntry (utf8d : List Nat → String) (s : RawService) : Except Unit ServiceEntry :=
  match s.id, s.service_type, s.endpoint with
  | some i, some t, some e =>
      .ok { id := utf8d i, service_type := utf8d t, endpoint := utf8d e }
  | _, _, _ => .error ()

/-- One iteration of the `metadata` loop (lines 22-29). -/
def metaEntry (utf8d : List Nat → String) (m : RawMetaItem) : Except Unit MetaEntry :=
  match m.key, m.value with
  | some k, some v => .ok { key := utf8d k, value := utf8d v }
  | _, _ => .error ()

/-- `did_to_document` from `did_resolver.py` (lines 4-62). -/
def did_to_document (utf8d b58e : List Nat → String) (did : String)
    (details : RawRecord) : Except Unit DIDDocument := do
  let services ← mapEntries (serviceEntry utf8d) (details.services.getD [])
  let metadata ← mapEntries (metaEntry utf8d) (details.metadata.getD [])
  let doc : DIDDocument :=
    { context := ["https://www.w3.org/ns/did/v1"]
      id := did
      version := details.version
      deactivated := details.deactivated
      verificationMethod := []
      authentication := []
      assertionMethod := []
      keyAgreement := []
      capabilityInvocation := []
      capabilityDelegation := []
      service := services
      metadata := metadata }
  addKeys utf8d b58e did 1 (details.keys.getD []) doc

/-- The value found under `"result"` in the RPC response dict. -/
inductive ResultField
  | absent
  | falsy
  | record (r : RawRecord)

/-- The RPC response value seen by `resolve_did`. -/
inductive RpcResponse
  | notDict
  | dict (result : ResultField)

/-- `resolve_did` from `did_resolver.py` (lines 65-72): `.ok none` is the
Python `None` ("not found"); `.error ()` is an escaping exception. -/
def resolve_did (utf8d b58e : List Nat → String) (did : String)
    (response : RpcResponse) : Except Unit (Option DIDDocument) :=
  match response with
  | .notDict => .ok none
  | .dict .absent => .ok none
  | .dict .falsy => .ok none
  | .dict (.record r) =>
      if r.isTruthy then (did_to_document utf8d b58e did r).map some
      else .ok none

/-! ### Secure key store (`did_store.py`)

PBKDF2, url-safe base64 and Fernet live in the `cryptography` package, so
they are parameters here: `kdfDerive` is
`PBKDF2HMAC(SHA256, length=32, salt, iterations=390000).derive(password)`,
`b64url` is `base64.urlsafe_b64encode`, and `fernetEnc` / `fernetDec` are
`Fernet(key).encrypt` / `Fernet(key).decrypt`, the latter returning `none`
for the `InvalidToken` raised on a wrong key or tampered token
(`DecryptionFailed` in the specification's taxonomy). -/

/-- `encrypt_private_key` from `did_store.py` (lines 13-22). -/
def encrypt_private_key (kdfDerive : String → List Nat → List Nat)
    (b64url : List Nat → List Nat) (fernetEnc : List Nat → List Nat → List Nat)
    (private_key : List Nat) (password : String) (salt : List Nat) : List Nat :=
  fernetEnc (b64url (kdfDerive password salt)) private_key

/-- `decrypt_private_key` from `did_store.py` (lines 25-34). -/
def decrypt_private_key (kdfDerive : String → List Nat → List Nat)
    (b64url : List Nat → List Nat)
    (fernetDec : List Nat → List Nat → Option (List Nat))
    (encrypted_private_key : List Nat) (password : String) (salt : List Nat) :
    Option (List Nat) :=
  fernetDec (b64url (kdfDerive password salt)) encrypted_private_key

/-- `bytes.hex()`: two lowercase hex digits per byte. -/
def hexDigitChar (n : Nat) : Char :=
  if n < 10 then Char.ofNat (48 + n) else Char.ofNat (87 + n)

/-- `bytes.hex()` over a byte string. -/
def bytes_hex : List Nat → List Char
  | [] => []
  | b :: bs => hexDigitChar (b / 16) :: hexDigitChar (b % 16) :: bytes_hex bs

/-- The JSON record written by `store_did_keys` (`did_store.py` lines 44-50). -/
structure StoredRecord where
  did : String
  public_key_hex : String
  private_key_enc : List Nat
  salt_hex : String
  kdf : String

/-- `store_did_keys` (`did_store.py` lines 37-53) with the file write, the
password prompt and the random salt draw factored out: the function below
is the record it serializes for a given password and salt. -/
def store_did_keys (kdfDerive : String → List Nat → List Nat)
    (b64url : List Nat → List Nat) (fernetEnc : List Nat → List Nat → List Nat)
    (did : String) (public_key private_key : List Nat) (password : String)
    (salt : List Nat) : StoredRecord :=
  { did := did
    public_key_hex := String.mk (bytes_hex public_key)
    private_key_enc := encrypt_private_key kdfDerive b64url fernetEnc private_key password salt
    salt_hex := String.mk (bytes_hex salt)
    kdf := "pbkdf2_sha256_390000" }

/-- `load_did_keys` (`did_store.py` lines 56-70) with the file read and the
password prompt factored out: decode the salt, decrypt, decode the public
key, return the triple.  `none` models a raised exception
(`ValueError` from `fromhex` or `InvalidToken` from Fernet). -/
def load_did_keys (kdfDerive : String → List Nat → List Nat)
    (b64url : List Nat → List Nat)
    (fernetDec : List Nat → List Nat → Option (List Nat))
    (record : StoredRecord) (password : String) :
    Option (String × List Nat × List Nat) := do
  let salt ← bytes_fromhex record.salt_hex
  let private_key ← decrypt_private_key kdfDerive b64url fernetDec
    record.private_key_enc password salt
  let public_key ← bytes_fromhex record.public_key_hex
  return (record.did, public_key, private_key)

/-! ### A compact-length decoder

Modelled from the spec: the repository has no decoder; §4.1 and §8 of the
specification demand that `encode_compact_len`'s output be self-describing
("round-trip losslessly", "reading the mode bits").  The function below is
that reader: the low two mode bits of the first byte select the width. -/

/-- Modelled from the spec: reads one compact length (mode bits `00`, `01`
or `10`) off the front of a byte string, returning the value and the
remaining bytes. -/
def decode_compact_len : List Nat → Option (Nat × List Nat)
  | [] => none
  | b0 :: rest =>
    if b0 % 4 = 0 then some (b0 / 4, rest)
    else if b0 % 4 = 1 then
      match rest with
      | b1 :: rest2 => some ((b0 + 256 * b1) / 4, rest2)
      | [] => none
    else if b0 % 4 = 2 then
      match rest with
      | b1 :: b2 :: b3 :: rest4 =>
          some ((b0 + 256 * b1 + 65536 * b2 + 16777216 * b3) / 4, rest4)
      | _ => none
    else none

/-! ## Codec lemmas -/

/-- Or-ing mode bits into a left-shifted value is addition. -/
lemma shiftLeft_two_or (v b : Nat) (hb : b < 4) : (v <<< 2) ||| b = 4 * v + b := by
  have h := Nat.mul_add_lt_is_or (b := b) (i := 2) (by omega) v
  rw [Nat.shiftLeft_eq, Nat.mul_comm v (2 ^ 2), ← h]

/-- Single-byte branch of the compact encoder. -/
lemma scale_compact_one (v : Nat) (h : v < 64) :
    scale_compact_u32 v = .ok [4 * v] := by
  have h1 : v < 1 <<< 6 := by simpa using h
  simp only [scale_compact_u32, if_pos h1]
  have hs : v <<< 2 = 4 * v := by rw [Nat.shiftLeft_eq]; ring
  have hm : 4 * v &&& 0xFF = 4 * v := by
    rw [show (0xFF : Nat) = 2 ^ 8 - 1 from rfl, Nat.and_pow_two_sub_one_eq_mod]
    exact Nat.mod_eq_of_lt (by omega)
  rw [hs, hm]

/-- Two-byte branch of the compact encoder. -/
lemma scale_compact_two (v : Nat) (h1 : 64 ≤ v) (h2 : v < 16384) :
    scale_compact_u32 v = .ok [(4 * v + 1) % 256, (4 * v + 1) / 256] := by
  have hn : ¬ v < 1 <<< 6 := by simpa using h1
  have hy : v < 1 <<< 14 := by simpa using h2
  simp only [scale_compact_u32, if_neg hn, if_pos hy]
  rw [shiftLeft_two_or v 1 (by omega)]
  simp only [toBytesLE]
  have hm : (4 * v + 1) / 256 % 256 = (4 * v + 1) / 256 :=
    Nat.mod_eq_of_lt (by omega)
  rw [hm]

/-- Four-byte branch of the compact encoder. -/
lemma scale_compact_four (v : Nat) (h1 : 16384 ≤ v) (h2 : v < 1073741824) :
    scale_compact_u32 v = .ok [(4 * v + 2) % 256, (4 * v + 2) / 256 % 256,
      (4 * v + 2) / 65536 % 256, (4 * v + 2) / 16777216] := by
  have hn1 : ¬ v < 1 <<< 6 := by simp; omega
  have hn2 : ¬ v < 1 <<< 14 := by simpa using h1
  have hy : v < 1 <<< 30 := by simpa using h2
  simp only [scale_compact_u32, if_neg hn1, if_neg hn2, if_pos hy]
  rw [shiftLeft_two_or v 2 (by omega)]
  simp only [toBytesLE]
  have hd2 : (4 * v + 2) / 256 / 256 = (4 * v + 2) / 65536 := by
    rw [Nat.div_div_eq_div_mul]
  have hd3 : (4 * v + 2) / 65536 / 256 = (4 * v + 2) / 16777216 := by
    rw [Nat.div_div_eq_div_mul]
  have hm : (4 * v + 2) / 16777216 % 256 = (4 * v + 2) / 16777216 :=
    Nat.mod_eq_of_lt (by omega)
  rw [hd2, hd3, hm]

/-- Failure branch of the compact encoder. -/
lemma scale_compact_err (v : Nat) (h : 1073741824 ≤ v) :
    scale_compact_u32 v = .error .EncodingTooLarge := by
  have hn1 : ¬ v < 1 <<< 6 := by simp; omega
  have hn2 : ¬ v < 1 <<< 14 := by simp; omega
  have hn3 : ¬ v < 1 <<< 30 := by simpa using h
  simp only [scale_compact_u32, if_neg hn1, if_neg hn2, if_neg hn3]

/-- The compact encoder succeeds on every value below `2 ^ 30`. -/
lemma scale_compact_ok_of_lt (v : Nat) (h : v < 1073741824) :
    ∃ cb, scale_compact_u32 v = .ok cb := by
  rcases Nat.lt_or_ge v 64 with h1 | h1
  · exact ⟨_, scale_compact_one v h1⟩
  rcases Nat.lt_or_ge v 16384 with h2 | h2
  · exact ⟨_, scale_compact_two v h1 h2⟩
  exact ⟨_, scale_compact_four v h2 h⟩

/-- The only error the compact encoder produces is `EncodingTooLarge`, and
only at values `≥ 2 ^ 30`. -/
lemma scale_compact_error_iff (v : Nat) (e : CodecError) :
    scale_compact_u32 v = .error e ↔ 1073741824 ≤ v ∧ e = .EncodingTooLarge := by
  constructor
  · intro h
    rcases Nat.lt_or_ge v 1073741824 with hv | hv
    · obtain ⟨cb, hcb⟩ := scale_compact_ok_of_lt v hv
      rw [hcb] at h
      cases h
    · rw [scale_compact_err v hv] at h
      cases h
      exact ⟨hv, rfl⟩
  · rintro ⟨hv, rfl⟩
    exact scale_compact_err v hv

/-- The decoder reads back exactly the value the encoder wrote, leaving the
remaining bytes untouched. -/
lemma decode_compact_append (v : Nat) (cb rest : List Nat)
    (h : scale_compact_u32 v = .ok cb) :
    decode_compact_len (cb ++ rest) = some (v, rest) := by
  rcases Nat.lt_or_ge v 64 with h1 | h1
  · rw [scale_compact_one v h1] at h
    cases h
    show decode_compact_len (4 * v :: rest) = some (v, rest)
    simp only [decode_compact_len]
    rw [if_pos (by omega)]
    congr 1
    congr 1
    omega
  rcases Nat.lt_or_ge v 16384 with h2 | h2
  · rw [scale_compact_two v h1 h2] at h
    cases h
    show decode_compact_len ((4 * v + 1) % 256 :: (4 * v + 1) / 256 :: rest) =
      some (v, rest)
    simp only [decode_compact_len]
    rw [if_neg (by omega), if_pos (by omega)]
    congr 1
    congr 1
    omega
  rcases Nat.lt_or_ge v 1073741824 with h3 | h3
  · rw [scale_compact_four v h2 h3] at h
    cases h
    simp only [List.cons_append, decode_compact_len]
    rw [if_neg (by omega), if_neg (by omega), if_pos (by omega)]
    congr 1
    congr 1
    omega
  · rw [scale_compact_err v h3] at h
    cases h

/-- `_scale_vec_u8` is the compact length word followed by the raw bytes. -/
lemma scale_vec_eq (b cb : List Nat) (h : scale_compact_u32 b.length = .ok cb) :
    scale_vec_u8 b = .ok (cb ++ b) := by
  simp [scale_vec_u8, h]

/-- C3: `_scale_compact_u32` emits one byte `value << 2` below `2^6`, two
little-endian bytes `(value << 2) | 01` below `2^14`, four little-endian
bytes `(value << 2) | 10` below `2^30`, and fails with `EncodingTooLarge`
from `2^30` on; at the boundaries, 63 encodes to one byte, 64 and 16383 to
two bytes, 16384 to four bytes, and `2^30` fails. -/
theorem C3_compact_length_encoder (v : Nat) :
    (v < 2 ^ 6 → scale_compact_u32 v = .ok [4 * v]) ∧
    (2 ^ 6 ≤ v → v < 2 ^ 14 →
      scale_compact_u32 v = .ok [(4 * v + 1) % 256, (4 * v + 1) / 256]) ∧
    (2 ^ 14 ≤ v → v < 2 ^ 30 →
      scale_compact_u32 v = .ok [(4 * v + 2) % 256, (4 * v + 2) / 256 % 256,
        (4 * v + 2) / 65536 % 256, (4 * v + 2) / 16777216]) ∧
    (2 ^ 30 ≤ v → scale_compact_u32 v = .error .EncodingTooLarge) ∧
    scale_compact_u32 63 = .ok [252] ∧
    scale_compact_u32 64 = .ok [1, 1] ∧
    scale_compact_u32 16383 = .ok [253, 255] ∧
    scale_compact_u32 16384 = .ok [2, 0, 1, 0] ∧
    scale_compact_u32 (2 ^ 30) = .error .EncodingTooLarge := by
  refine ⟨?_, ?_, ?_, ?_, by rfl, by rfl, by rfl, by rfl, by rfl⟩
  · intro h
    exact scale_compact_one v (by omega)
  · intro h1 h2
    exact scale_compact_two v (by norm_num at h1 ⊢; omega) (by norm_num at h2 ⊢; omega)
  · intro h1 h2
    exact scale_compact_four v (by norm_num at h1 ⊢; omega) (by norm_num at h2 ⊢; omega)
  · intro h
    exact scale_compact_err v (by norm_num at h ⊢; omega)

/-- Witness for C3 at `v = 100` (two-byte branch). -/
theorem C3_compact_length_encoder_witness :
    scale_compact_u32 100 = .ok [(4 * 100 + 1) % 256, (4 * 100 + 1) / 256] :=
  (C3_compact_length_encoder 100).2.1 (by norm_num) (by norm_num)

/-- C4: `encode_vec` is the compact length word followed by the input bytes,
the decoder modelled from the spec recovers the length and the bytes exactly,
and the encoding is injective on byte strings of supported length. -/
theorem C4_encode_vec_roundtrip (b : List Nat) (h : b.length < 2 ^ 30) :
    ∃ enc, scale_vec_u8 b = .ok enc ∧
      (∀ cb, scale_compact_u32 b.length = .ok cb → enc = cb ++ b) ∧
      decode_compact_len enc = some (b.length, b) ∧
      (∀ b2 enc2, scale_vec_u8 b2 = .ok enc2 → enc = enc2 → b = b2) := by
  obtain ⟨cb, hcb⟩ := scale_compact_ok_of_lt b.length (by norm_num at h ⊢; omega)
  refine ⟨cb ++ b, scale_vec_eq b cb hcb, ?_, ?_, ?_⟩
  · intro cb' hcb'
    rw [hcb] at hcb'
    cases hcb'
    rfl
  · exact decode_compact_append b.length cb b hcb
  · intro b2 enc2 henc2 heq
    obtain ⟨cb2, hcb2, henc2'⟩ : ∃ cb2, scale_compact_u32 b2.length = .ok cb2 ∧
        enc2 = cb2 ++ b2 := by
      revert henc2
      unfold scale_vec_u8
      cases hc : scale_compact_u32 b2.length with
      | error e => intro hh; cases hh
      | ok cb2 =>
        intro hh
        refine ⟨cb2, rfl, ?_⟩
        cases hh
        rfl
    have hd1 : decode_compact_len enc2 = some (b.length, b) := by
      rw [← heq]
      exact decode_compact_append b.length cb b hcb
    have hd2 : decode_compact_len enc2 = some (b2.length, b2) := by
      rw [henc2']
      exact decode_compact_append b2.length cb2 b2 hcb2
    rw [hd1] at hd2
    exact congrArg Prod.snd (Option.some.inj hd2)

/-- Witness for C4 at `b = [9, 10]`. -/
theorem C4_encode_vec_roundtrip_witness :
    decode_compact_len [8, 9, 10] = some (2, [9, 10]) := by
  obtain ⟨enc, h1, _, h3, _⟩ := C4_encode_vec_roundtrip [9, 10] (by norm_num)
  have he : enc = [8, 9, 10] := by
    have h2 : scale_vec_u8 [9, 10] = Except.ok [8, 9, 10] := by rfl
    rw [h2] at h1
    cases h1
    rfl
  rw [he] at h3
  exact h3

/-! ## Role encoding lemmas -/

/-- When every role name is recognized, the role loop encodes each role to
its code byte, in order, skipping none. -/
lemma roleCodes_ok_of (roles : List String)
    (h : ∀ r ∈ roles, (KEY_ROLE_INDEX r).isSome) :
    roleCodes roles = .ok (roles.map (fun r => (KEY_ROLE_INDEX r).getD 0)) := by
  induction roles with
  | nil => rfl
  | cons r rs ih =>
    obtain ⟨i, hi⟩ := Option.isSome_iff_exists.mp (h r (List.mem_cons_self r rs))
    have hrs := ih (fun x hx => h x (List.mem_cons_of_mem _ hx))
    simp [roleCodes, hi, hrs]

/-- The only error the role loop raises is `UnknownRole`. -/
lemma roleCodes_error_unknown (roles : List String) (e : CodecError)
    (h : roleCodes roles = .error e) : e = .UnknownRole := by
  induction roles with
  | nil => cases h
  | cons r rs ih =>
    cases hr : KEY_ROLE_INDEX r with
    | none =>
      simp only [roleCodes, hr] at h
      cases h
      rfl
    | some i =>
      cases hc : roleCodes rs with
      | ok tail => simp [roleCodes, hr, hc] at h
      | error e2 =>
        simp only [roleCodes, hr, hc] at h
        cases h
        exact ih hc

/-- An unrecognized role name anywhere in the list makes the role loop fail
with `UnknownRole`. -/
lemma roleCodes_err_of_mem (roles : List String) (r : String) (hr : r ∈ roles)
    (hn : KEY_ROLE_INDEX r = none) : roleCodes roles = .error .UnknownRole := by
  induction roles with
  | nil => cases hr
  | cons x xs ih =>
    cases hx : KEY_ROLE_INDEX x with
    | none =>
      cases hc : roleCodes xs with
      | ok tail => simp [roleCodes, hx, hc]
      | error e2 => simp [roleCodes, hx, hc]
    | some i =>
      have hrx : r ∈ xs := by
        rcases List.mem_cons.mp hr with rfl | hmem
        · rw [hx] at hn; cases hn
        · exact hmem
      simp [roleCodes, hx, ih hrx]

/-- The role loop fails exactly on lists containing an unknown role name. -/
lemma roleCodes_err_iff (roles : List String) :
    roleCodes roles = .error .UnknownRole ↔ ∃ r ∈ roles, KEY_ROLE_INDEX r = none := by
  constructor
  · intro h
    by_contra hno
    push_neg at hno
    have hall : ∀ r ∈ roles, (KEY_ROLE_INDEX r).isSome := by
      intro r hr
      cases hx : KEY_ROLE_INDEX r with
      | none => exact absurd hx (hno r hr)
      | some i => rfl
    rw [roleCodes_ok_of roles hall] at h
    cases h
  · rintro ⟨r, hr, hn⟩
    exact roleCodes_err_of_mem roles r hr hn

/-- `_scale_roles` on a successful length word and role loop. -/
lemma scale_roles_ok_char (roles : List String) (cb codes : List Nat)
    (h1 : scale_compact_u32 roles.length = .ok cb)
    (h2 : roleCodes roles = .ok codes) :
    scale_roles roles = .ok (cb ++ codes) := by
  unfold scale_roles
  rw [h1, h2]
  rfl

/-- `_scale_roles` propagates a length-word failure. -/
lemma scale_roles_err_len (roles : List String) (e : CodecError)
    (h1 : scale_compact_u32 roles.length = .error e) :
    scale_roles roles = .error e := by
  unfold scale_roles
  rw [h1]
  rfl

/-- `_scale_roles` propagates a role-loop failure. -/
lemma scale_roles_err_codes (roles : List String) (cb : List Nat) (e : CodecError)
    (h1 : scale_compact_u32 roles.length = .ok cb)
    (h2 : roleCodes roles = .error e) :
    scale_roles roles = .error e := by
  unfold scale_roles
  rw [h1, h2]
  rfl

/-- C9 (amended): provided the role list is short enough for its length word
to encode (fewer than `2^30` entries), `_scale_roles` fails with
`UnknownRole` exactly when some role name is outside the five recognized
ones, and otherwise succeeds, emitting the length word followed by one code
byte per role in order, skipping and defaulting nothing. -/
theorem C9_role_encoder_unknown_role (roles : List String) :
    (scale_roles roles = .error .UnknownRole ↔
      roles.length < 2 ^ 30 ∧ ∃ r ∈ roles, KEY_ROLE_INDEX r = none) ∧
    (roles.length < 2 ^ 30 → (∀ r ∈ roles, (KEY_ROLE_INDEX r).isSome) →
      ∀ cb, scale_compact_u32 roles.length = .ok cb →
        scale_roles roles = .ok (cb ++ roles.map (fun r => (KEY_ROLE_INDEX r).getD 0))) := by
  have hpow : (2 : Nat) ^ 30 = 1073741824 := by norm_num
  constructor
  · cases hc : scale_compact_u32 roles.length with
    | error e =>
      have he := (scale_compact_error_iff roles.length e).mp hc
      constructor
      · intro h
        rw [scale_roles_err_len roles e hc] at h
        cases h
        cases he.2
      · rintro ⟨hlen, _⟩
        omega
    | ok cb =>
      have hlen : roles.length < 1073741824 := by
        by_contra hge
        rw [scale_compact_err roles.length (by omega)] at hc
        cases hc
      constructor
      · intro h
        refine ⟨by omega, ?_⟩
        rw [← roleCodes_err_iff]
        cases hr : roleCodes roles with
        | ok codes =>
          rw [scale_roles_ok_char roles cb codes hc hr] at h
          cases h
        | error e2 =>
          rw [roleCodes_error_unknown roles e2 hr]
      · rintro ⟨_, r, hr, hn⟩
        exact scale_roles_err_codes roles cb .UnknownRole hc
          (roleCodes_err_of_mem roles r hr hn)
  · intro _ hall cb hcb
    exact scale_roles_ok_char roles cb _ hcb (roleCodes_ok_of roles hall)

/-- Counterexample to C9 as stated: a role list of length `2^30` made
entirely of the recognized name `"Authentication"` does not encode — the
length word overflows first, so the encoder fails with `EncodingTooLarge`
even though every name is recognized (and, symmetrically, an unknown name
in such a list would not surface as `UnknownRole`). -/
theorem C9_role_encoder_unknown_role_counterexample :
    (∀ r ∈ List.replicate (2 ^ 30) "Authentication", (KEY_ROLE_INDEX r).isSome) ∧
    scale_roles (List.replicate (2 ^ 30) "Authentication") =
      .error .EncodingTooLarge := by
  constructor
  · intro r hr
    rw [List.eq_of_mem_replicate hr]
    rfl
  · unfold scale_roles
    rw [List.length_replicate]
    rfl

/-- Witness for C9 at `roles = ["AssertionMethod"]`. -/
theorem C9_role_encoder_unknown_role_witness :
    scale_roles ["AssertionMethod"] = .ok [4, 1] := by
  have h := (C9_role_encoder_unknown_role ["AssertionMethod"]).2 (by norm_num)
    (by
      intro r hr
      rw [List.mem_singleton.mp hr]
      rfl)
    [4] (by rfl)
  exact h

/-- Destructuring a successful `Except` bind. -/
lemma bindOk {α β : Type} {e : Except CodecError α} {f : α → Except CodecError β}
    {b : β} (h : (e >>= f) = .ok b) : ∃ a, e = .ok a ∧ f a = .ok b := by
  cases e with
  | error err => exact Except.noConfusion h
  | ok a => exact ⟨a, rfl, h⟩

/-- C6: `build_add_key_payload` is exactly the `add_key` tag, the two
length-prefixed byte fields and the role encoding, concatenated in order;
the role codes are Authentication=0, AssertionMethod=1, KeyAgreement=2,
CapabilityInvocation=3, CapabilityDelegation=4; and on the spec's concrete
example the payload is the tag, `encode_vec(b"did1")`, `encode_vec(b"\x09\x0a")`,
`encode_compact_len(1)` and the byte `0x01`. -/
theorem C6_build_add_key_payload_shape (did_id public_key : List Nat)
    (roles : List String) :
    (∀ a b c, scale_vec_u8 did_id = .ok a → scale_vec_u8 public_key = .ok b →
      scale_roles roles = .ok c →
      build_add_key_payload did_id public_key roles =
        .ok (DID_ADD_KEY_TAG ++ a ++ b ++ c)) ∧
    KEY_ROLE_INDEX "Authentication" = some 0 ∧
    KEY_ROLE_INDEX "AssertionMethod" = some 1 ∧
    KEY_ROLE_INDEX "KeyAgreement" = some 2 ∧
    KEY_ROLE_INDEX "CapabilityInvocation" = some 3 ∧
    KEY_ROLE_INDEX "CapabilityDelegation" = some 4 ∧
    (∀ cb codes, scale_compact_u32 roles.length = .ok cb →
      roleCodes roles = .ok codes → scale_roles roles = .ok (cb ++ codes)) ∧
    build_add_key_payload (ascii "did1") [9, 10] ["AssertionMethod"] =
      .ok (DID_ADD_KEY_TAG ++ ([16] ++ ascii "did1") ++ ([8] ++ [9, 10]) ++
        ([4] ++ [1])) := by
  refine ⟨?_, rfl, rfl, rfl, rfl, rfl, fun cb codes h1 h2 =>
    scale_roles_ok_char roles cb codes h1 h2, by rfl⟩
  intro a b c h1 h2 h3
  unfold build_add_key_payload
  rw [h1, h2, h3]
  rfl

/-- Witness for C6 at `did_id = [1]`, `public_key = [2]`, `roles = []`. -/
theorem C6_build_add_key_payload_shape_witness :
    build_add_key_payload [1] [2] [] =
      .ok (DID_ADD_KEY_TAG ++ [4, 1] ++ [4, 2] ++ [0]) :=
  (C6_build_add_key_payload_shape [1] [2] []).1 [4, 1] [4, 2] [0]
    (by rfl) (by rfl) (by rfl)

/-! ## Domain separation -/

/-- The eleven operations of `main.py`, with the field inputs each payload
builder consumes. -/
inductive DidOp
  | createDid (public_key : List Nat)
  | addKey (did_id public_key : List Nat) (roles : List String)
  | revokeKey (did_id public_key : List Nat)
  | rotateKey (did_id old_public_key new_public_key : List Nat) (roles : List String)
  | updateRoles (did_id public_key : List Nat) (roles : List String)
  | deactivateDid (did_id : List Nat)
  | addService (did_id service_id service_type endpoint : List Nat)
  | removeService (did_id service_id : List Nat)
  | setMetadata (did_id key value : List Nat)
  | removeMetadata (did_id key : List Nat)
  | registerSchema (schema_json : List Nat)

/-- Payload built for each operation, dispatching to the builder functions. -/
def DidOp.build : DidOp → Except CodecError (List Nat)
  | .createDid pk => build_create_did_payload pk
  | .addKey d pk rs => build_add_key_payload d pk rs
  | .revokeKey d pk => build_revoke_key_payload d pk
  | .rotateKey d opk npk rs => build_rotate_key_payload d opk npk rs
  | .updateRoles d pk rs => build_update_roles_payload d pk rs
  | .deactivateDid d => build_deactivate_did_payload d
  | .addService d sid sty ep => build_add_service_payload d sid sty ep
  | .removeService d sid => build_remove_service_payload d sid
  | .setMetadata d k v => build_set_metadata_payload d k v
  | .removeMetadata d k => build_remove_metadata_payload d k
  | .registerSchema sj => schema_sign_payload sj

/-- Which of the eleven operations an invocation is. -/
def DidOp.opIndex : DidOp → Nat
  | .createDid _ => 0
  | .addKey _ _ _ => 1
  | .revokeKey _ _ => 2
  | .rotateKey _ _ _ _ => 3
  | .updateRoles _ _ _ => 4
  | .deactivateDid _ => 5
  | .addService _ _ _ _ => 6
  | .removeService _ _ => 7
  | .setMetadata _ _ _ => 8
  | .removeMetadata _ _ => 9
  | .registerSchema _ => 10

/-- The operation tag each builder prepends. -/
def DidOp.tag : DidOp → List Nat
  | .createDid _ => DID_CREATE_TAG
  | .addKey _ _ _ => DID_ADD_KEY_TAG
  | .revokeKey _ _ => DID_REVOKE_KEY_TAG
  | .rotateKey _ _ _ _ => DID_ROTATE_KEY_TAG
  | .updateRoles _ _ _ => DID_UPDATE_ROLES_TAG
  | .deactivateDid _ => DID_DEACTIVATE_TAG
  | .addService _ _ _ _ => DID_ADD_SERVICE_TAG
  | .removeService _ _ => DID_REMOVE_SERVICE_TAG
  | .setMetadata _ _ _ => DID_SET_METADATA_TAG
  | .removeMetadata _ _ => DID_REMOVE_METADATA_TAG
  | .registerSchema _ => SCHEMA_TAG

/-- The eleven tags, ordered by `DidOp.opIndex`. -/
def TAGS : List (List Nat) :=
  [DID_CREATE_TAG, DID_ADD_KEY_TAG, DID_REVOKE_KEY_TAG, DID_ROTATE_KEY_TAG,
   DID_UPDATE_ROLES_TAG, DID_DEACTIVATE_TAG, DID_ADD_SERVICE_TAG,
   DID_REMOVE_SERVICE_TAG, DID_SET_METADATA_TAG, DID_REMOVE_METADATA_TAG,
   SCHEMA_TAG]

/-- Each operation's tag sits at its index in `TAGS`. -/
lemma tag_eq_getD (o : DidOp) : o.tag = TAGS.getD o.opIndex [] := by
  cases o <;> rfl

/-- The operation index is one of the eleven. -/
lemma opIndex_lt (o : DidOp) : o.opIndex < 11 := by
  cases o <;> simp [DidOp.opIndex]

set_option maxRecDepth 8192 in
/-- No tag is a prefix of a different operation's tag (which also makes the
eleven tags pairwise distinct). -/
lemma tags_disjoint :
    ∀ i < 11, ∀ j < 11, i ≠ j → ¬ (TAGS.getD i []) <+: (TAGS.getD j []) := by
  decide

/-- Every successfully built payload starts with its operation's tag. -/
lemma build_starts_with_tag (o : DidOp) (p : List Nat) (h : o.build = .ok p) :
    ∃ r, p = o.tag ++ r := by
  cases o with
  | createDid pk =>
    unfold DidOp.build build_create_did_payload at h
    obtain ⟨a, _, h2⟩ := bindOk h
    exact ⟨a, (Except.ok.inj h2).symm⟩
  | addKey d pk rs =>
    unfold DidOp.build build_add_key_payload at h
    obtain ⟨a, _, h2⟩ := bindOk h
    obtain ⟨b, _, h3⟩ := bindOk h2
    obtain ⟨c, _, h4⟩ := bindOk h3
    exact ⟨a ++ b ++ c, by rw [← Except.ok.inj h4]; simp [DidOp.tag, List.append_assoc]⟩
  | revokeKey d pk =>
    unfold DidOp.build build_revoke_key_payload at h
    obtain ⟨a, _, h2⟩ := bindOk h
    obtain ⟨b, _, h3⟩ := bindOk h2
    exact ⟨a ++ b, by rw [← Except.ok.inj h3]; simp [DidOp.tag, List.append_assoc]⟩
  | rotateKey d opk npk rs =>
    unfold DidOp.build build_rotate_key_payload at h
    obtain ⟨a, _, h2⟩ := bindOk h
    obtain ⟨b, _, h3⟩ := bindOk h2
    obtain ⟨c, _, h4⟩ := bindOk h3
    obtain ⟨e, _, h5⟩ := bindOk h4
    exact ⟨a ++ b ++ c ++ e, by rw [← Except.ok.inj h5]; simp [DidOp.tag, List.append_assoc]⟩
  | updateRoles d pk rs =>
    unfold DidOp.build build_update_roles_payload at h
    obtain ⟨a, _, h2⟩ := bindOk h
    obtain ⟨b, _, h3⟩ := bindOk h2
    obtain ⟨c, _, h4⟩ := bindOk h3
    exact ⟨a ++ b ++ c, by rw [← Except.ok.inj h4]; simp [DidOp.tag, List.append_assoc]⟩
  | deactivateDid d =>
    unfold DidOp.build build_deactivate_did_payload at h
    obtain ⟨a, _, h2⟩ := bindOk h
    exact ⟨a, (Except.ok.inj h2).symm⟩
  | addService d sid sty ep =>
    unfold DidOp.build build_add_service_payload at h
    obtain ⟨a, _, h2⟩ := bindOk h
    obtain ⟨b, _, h3⟩ := bindOk h2
    obtain ⟨c, _, h4⟩ := bindOk h3
    obtain ⟨e, _, h5⟩ := bindOk h4
    exact ⟨e ++ (a ++ b ++ c), by rw [← Except.ok.inj h5]; simp [DidOp.tag, List.append_assoc]⟩
  | removeService d sid =>
    unfold DidOp.build build_remove_service_payload at h
    obtain ⟨a, _, h2⟩ := bindOk h
    obtain ⟨b, _, h3⟩ := bindOk h2
    exact ⟨a ++ b, by rw [← Except.ok.inj h3]; simp [DidOp.tag, List.append_assoc]⟩
  | setMetadata d k v =>
    unfold DidOp.build build_set_metadata_payload at h
    obtain ⟨a, _, h2⟩ := bindOk h
    obtain ⟨b, _, h3⟩ := bindOk h2
    obtain ⟨c, _, h4⟩ := bindOk h3
    exact ⟨a ++ b ++ c, by rw [← Except.ok.inj h4]; simp [DidOp.tag, List.append_assoc]⟩
  | removeMetadata d k =>
    unfold DidOp.build build_remove_metadata_payload at h
    obtain ⟨a, _, h2⟩ := bindOk h
    obtain ⟨b, _, h3⟩ := bindOk h2
    exact ⟨a ++ b, by rw [← Except.ok.inj h3]; simp [DidOp.tag, List.append_assoc]⟩
  | registerSchema sj =>
    unfold DidOp.build schema_sign_payload at h
    exact ⟨sj, (Except.ok.inj h).symm⟩

/-- C1: the eleven operation tags are pairwise distinct and mutually
non-prefix, so payloads successfully built by two different operations are
never byte-equal, whatever the field inputs; in particular `add_key` and
`update_roles` payloads over identical `(did_id, public_key, roles)`
always differ. -/
theorem C1_cross_operation_domain_separation :
    (∀ i < 11, ∀ j < 11, i ≠ j →
      TAGS.getD i [] ≠ TAGS.getD j [] ∧ ¬ (TAGS.getD i []) <+: (TAGS.getD j [])) ∧
    (∀ o1 o2 : DidOp, ∀ p1 p2 : List Nat, o1.build = .ok p1 → o2.build = .ok p2 →
      o1.opIndex ≠ o2.opIndex → p1 ≠ p2) ∧
    (∀ did_id public_key roles p1 p2,
      build_add_key_payload did_id public_key roles = .ok p1 →
      build_update_roles_payload did_id public_key roles = .ok p2 → p1 ≠ p2) := by
  have hnp := tags_disjoint
  have hmain : ∀ o1 o2 : DidOp, ∀ p1 p2 : List Nat,
      o1.build = .ok p1 → o2.build = .ok p2 → o1.opIndex ≠ o2.opIndex → p1 ≠ p2 := by
    intro o1 o2 p1 p2 h1 h2 hne heq
    obtain ⟨r1, hr1⟩ := build_starts_with_tag o1 p1 h1
    obtain ⟨r2, hr2⟩ := build_starts_with_tag o2 p2 h2
    rw [heq, hr2] at hr1
    have happ : o2.tag ++ r2 = o1.tag ++ r1 := hr1
    rcases List.append_eq_append_iff.mp happ with ⟨a', ha', _⟩ | ⟨c', hc', _⟩
    · exact hnp o2.opIndex (opIndex_lt o2) o1.opIndex (opIndex_lt o1) (Ne.symm hne)
        (by rw [← tag_eq_getD, ← tag_eq_getD]; exact ⟨a', ha'.symm⟩)
    · exact hnp o1.opIndex (opIndex_lt o1) o2.opIndex (opIndex_lt o2) hne
        (by rw [← tag_eq_getD, ← tag_eq_getD]; exact ⟨c', hc'.symm⟩)
  refine ⟨?_, hmain, ?_⟩
  · intro i hi j hj hne
    refine ⟨?_, hnp i hi j hj hne⟩
    intro he
    exact hnp i hi j hj hne (he ▸ List.prefix_refl _)
  · intro did_id public_key roles p1 p2 h1 h2
    exact hmain (.addKey did_id public_key roles) (.updateRoles did_id public_key roles)
      p1 p2 h1 h2 (by simp [DidOp.opIndex])

/-- Witness for C1: the `add_key` and `update_roles` payloads over
`did_id = [1]`, `public_key = [2]`, `roles = []` differ. -/
theorem C1_cross_operation_domain_separation_witness :
    DID_ADD_KEY_TAG ++ [4, 1] ++ [4, 2] ++ [0] ≠
      DID_UPDATE_ROLES_TAG ++ [4, 1] ++ [4, 2] ++ [0] :=
  C1_cross_operation_domain_separation.2.2 [1] [2] []
    (DID_ADD_KEY_TAG ++ [4, 1] ++ [4, 2] ++ [0])
    (DID_UPDATE_ROLES_TAG ++ [4, 1] ++ [4, 2] ++ [0]) (by rfl) (by rfl)

/-- C5: `derive_did_id` is the base58 encoding of the 32-byte BLAKE2b digest
of `b"QSB_DID" ++ genesis_bytes ++ public_key` (genesis hex-decoded after
stripping an optional `0x`), `derive_schema_id` is `"did:qsb:schema:"`
followed by the base58 digest of `b"QSB_SCHEMA" ++ genesis_bytes ++
schema_bytes`, and both are pure and deterministic. -/
theorem C5_identifier_derivation (blake2b32 : List Nat → List Nat)
    (b58e : List Nat → String) (genesis_hash_hex : String)
    (public_key schema_json : List Nat) :
    (∀ gb, bytes_fromhex (strip0x genesis_hash_hex) = some gb →
      derive_did_id blake2b32 b58e genesis_hash_hex public_key =
        some (b58e (blake2b32 (ascii "QSB_DID" ++ gb ++ public_key))) ∧
      derive_schema_id blake2b32 b58e genesis_hash_hex schema_json =
        some ("did:qsb:schema:" ++
          b58e (blake2b32 (ascii "QSB_SCHEMA" ++ gb ++ schema_json)))) ∧
    derive_did_id blake2b32 b58e genesis_hash_hex public_key =
      derive_did_id blake2b32 b58e genesis_hash_hex public_key ∧
    derive_schema_id blake2b32 b58e genesis_hash_hex schema_json =
      derive_schema_id blake2b32 b58e genesis_hash_hex schema_json := by
  refine ⟨?_, rfl, rfl⟩
  intro gb hgb
  constructor
  · unfold derive_did_id
    rw [hgb]
    rfl
  · unfold derive_schema_id
    rw [hgb]
    rfl

/-- Witness for C5 at genesis `"0x00"`, `public_key = [1, 2, 3]`, with a
constant digest and base58 stub. -/
theorem C5_identifier_derivation_witness :
    derive_did_id (fun _ => []) (fun _ => "h") "0x00" [1, 2, 3] = some "h" ∧
    derive_schema_id (fun _ => []) (fun _ => "h") "0x00" [4] =
      some ("did:qsb:schema:" ++ "h") :=
  (C5_identifier_derivation (fun _ => []) (fun _ => "h") "0x00" [1, 2, 3] [4]).1
    [0] (by rfl)

/-! ## Resolver lemmas -/

/-- The verification-method entry built for key `k` at 1-based `index`. -/
def vmOf (b58e : List Nat → String) (did : String) (index : Nat)
    (k : RawKey) : VerificationMethod :=
  { id := keyId did index
    type := "ML-DSA-44"
    controller := did
    publicKeyMultibase := "z" ++ b58e (k.public_key.getD [])
    revoked := k.revoked.getD false
    roles := k.roles.getD [] }

/-- The verification-method list for a key list starting at `index`. -/
def vmsOf (b58e : List Nat → String) (did : String) :
    Nat → List RawKey → List VerificationMethod
  | _, [] => []
  | index, k :: ks => vmOf b58e did index k :: vmsOf b58e did (index + 1) ks

/-- The contribution of a key list starting at `index` to the relationship
array `f`: one copy of the key id per occurrence of the matching role
name, in ledger order. -/
def relOf (did : String) (f : RoleField) : Nat → List RawKey → List String
  | _, [] => []
  | index, k :: ks =>
      ((k.roles.getD []).filter (fun ro => decide (role_map ro = some f))).map
        (fun _ => keyId did index) ++ relOf did f (index + 1) ks

/-- `pushRole` touches exactly the named relationship array. -/
lemma relProj_pushRole (f g : RoleField) (doc : DIDDocument) (kid : String) :
    relProj f (pushRole doc g kid) =
      if g = f then relProj f doc ++ [kid] else relProj f doc := by
  cases f <;> cases g <;> simp [pushRole, relProj]

/-- `pushRole` leaves every non-relationship field unchanged. -/
lemma pushRole_preserves (g : RoleField) (doc : DIDDocument) (kid : String) :
    (pushRole doc g kid).verificationMethod = doc.verificationMethod ∧
    (pushRole doc g kid).service = doc.service ∧
    (pushRole doc g kid).metadata = doc.metadata ∧
    (pushRole doc g kid).id = doc.id ∧
    (pushRole doc g kid).version = doc.version ∧
    (pushRole doc g kid).deactivated = doc.deactivated ∧
    (pushRole doc g kid).context = doc.context := by
  cases g <;> exact ⟨rfl, rfl, rfl, rfl, rfl, rfl, rfl⟩

/-- The role loop appends, to array `f`, one copy of `kid` per matching role
name, in order. -/
lemma addRoles_relProj (kid : String) (ros : List String) (doc : DIDDocument)
    (f : RoleField) :
    relProj f (addRoles kid doc ros) =
      relProj f doc ++
        (ros.filter (fun ro => decide (role_map ro = some f))).map (fun _ => kid) := by
  induction ros generalizing doc with
  | nil => simp [addRoles]
  | cons ro ros ih =>
    cases hro : role_map ro with
    | none =>
      rw [addRoles, hro]
      rw [ih doc]
      simp [List.filter_cons, hro]
    | some g =>
      rw [addRoles, hro]
      rw [ih (pushRole doc g kid)]
      rw [relProj_pushRole f g doc kid]
      by_cases hgf : g = f
      · subst hgf
        simp [List.filter_cons, hro]
      · simp [List.filter_cons, hro, hgf]

/-- The role loop leaves every non-relationship field unchanged. -/
lemma addRoles_preserves (kid : String) (ros : List String) (doc : DIDDocument) :
    (addRoles kid doc ros).verificationMethod = doc.verificationMethod ∧
    (addRoles kid doc ros).service = doc.service ∧
    (addRoles kid doc ros).metadata = doc.metadata ∧
    (addRoles kid doc ros).id = doc.id ∧
    (addRoles kid doc ros).version = doc.version ∧
    (addRoles kid doc ros).deactivated = doc.deactivated ∧
    (addRoles kid doc ros).context = doc.context := by
  induction ros generalizing doc with
  | nil => exact ⟨rfl, rfl, rfl, rfl, rfl, rfl, rfl⟩
  | cons ro ros ih =>
    cases hro : role_map ro with
    | none =>
      rw [addRoles, hro]
      exact ih doc
    | some g =>
      rw [addRoles, hro]
      obtain ⟨h1, h2, h3, h4, h5, h6, h7⟩ := ih (pushRole doc g kid)
      obtain ⟨g1, g2, g3, g4, g5, g6, g7⟩ := pushRole_preserves g doc kid
      exact ⟨h1.trans g1, h2.trans g2, h3.trans g3, h4.trans g4, h5.trans g5,
        h6.trans g6, h7.trans g7⟩

/-- The relationship arrays ignore the `verificationMethod` field. -/
lemma relProj_set_vm (f : RoleField) (doc : DIDDocument)
    (vms : List VerificationMethod) :
    relProj f { doc with verificationMethod := vms } = relProj f doc := by
  cases f <;> rfl

/-- What a successful key loop adds to the accumulated document: one
verification method per key, and per relationship array the matching key
ids, everything else untouched. -/
lemma addKeys_proj (utf8d b58e : List Nat → String) (did : String) :
    ∀ (ks : List RawKey) (index : Nat) (doc res : DIDDocument),
    addKeys utf8d b58e did index ks doc = .ok res →
    res.verificationMethod = doc.verificationMethod ++ vmsOf b58e did index ks ∧
    (∀ f, relProj f res = relProj f doc ++ relOf did f index ks) ∧
    res.service = doc.service ∧
    res.metadata = doc.metadata ∧
    res.id = doc.id ∧
    res.version = doc.version ∧
    res.deactivated = doc.deactivated ∧
    res.context = doc.context := by
  intro ks
  induction ks with
  | nil =>
    intro index doc res h
    cases h
    simp [vmsOf, relOf]
  | cons k ks ih =>
    intro index doc res h
    cases hpk : k.public_key with
    | none => simp [addKeys, hpk] at h
    | some pk =>
      simp only [addKeys, hpk] at h
      have hfold : ({ id := keyId did index, type := "ML-DSA-44", controller := did,
                      publicKeyMultibase := "z" ++ b58e pk,
                      revoked := k.revoked.getD false,
                      roles := k.roles.getD [] } : VerificationMethod) =
          vmOf b58e did index k := by
        simp [vmOf, hpk]
      rw [hfold] at h
      obtain ⟨hvm, hrel, hsv, hmd, hid, hver, hdea, hctx⟩ :=
        ih (index + 1) _ res h
      have hdocvm : ∀ g, relProj g (addRoles (keyId did index)
          { doc with verificationMethod :=
              doc.verificationMethod ++ [vmOf b58e did index k] }
          (k.roles.getD [])) =
          relProj g doc ++
            ((k.roles.getD []).filter
              (fun ro => decide (role_map ro = some g))).map
              (fun _ => keyId did index) := by
        intro g
        rw [addRoles_relProj, relProj_set_vm]
      obtain ⟨pvm, psv, pmd, pid, pver, pdea, pctx⟩ :=
        addRoles_preserves (keyId did index)
          (k.roles.getD [])
          { doc with verificationMethod :=
              doc.verificationMethod ++ [vmOf b58e did index k] }
      refine ⟨?_, ?_, ?_, ?_, ?_, ?_, ?_, ?_⟩
      · rw [hvm, pvm]
        simp [vmsOf, List.append_assoc]
      · intro f
        rw [hrel f, hdocvm f]
        simp [relOf, List.append_assoc]
      · rw [hsv, psv]
      · rw [hmd, pmd]
      · rw [hid, pid]
      · rw [hver, pver]
      · rw [hdea, pdea]
      · rw [hctx, pctx]

/-- A key entry without `"public_key"` makes the key loop raise. -/
lemma addKeys_err (utf8d b58e : List Nat → String) (did : String) :
    ∀ (ks : List RawKey) (index : Nat) (doc : DIDDocument),
    (∃ k ∈ ks, k.public_key = none) →
    addKeys utf8d b58e did index ks doc = .error () := by
  intro ks
  induction ks with
  | nil =>
    rintro index doc ⟨k, hk, _⟩
    cases hk
  | cons k ks ih =>
    rintro index doc ⟨k', hk', hnone⟩
    cases hpk : k.public_key with
    | none => simp [addKeys, hpk]
    | some pk =>
      have hk'' : k' ∈ ks := by
        rcases List.mem_cons.mp hk' with rfl | hmem
        · rw [hpk] at hnone; cases hnone
        · exact hmem
      simp only [addKeys, hpk]
      exact ih (index + 1) _ ⟨k', hk'', hnone⟩

/-- The key loop succeeds whenever every key has a `"public_key"` field,
whatever the role names are. -/
lemma addKeys_ok_of (utf8d b58e : List Nat → String) (did : String) :
    ∀ (ks : List RawKey) (index : Nat) (doc : DIDDocument),
    (∀ k ∈ ks, k.public_key.isSome) →
    ∃ res, addKeys utf8d b58e did index ks doc = .ok res := by
  intro ks
  induction ks with
  | nil => exact fun index doc _ => ⟨doc, rfl⟩
  | cons k ks ih =>
    intro index doc hall
    obtain ⟨pk, hpk⟩ :=
      Option.isSome_iff_exists.mp (hall k (List.mem_cons_self k ks))
    obtain ⟨res, hres⟩ := ih (index + 1)
      (addRoles (keyId did index)
        { doc with verificationMethod :=
            doc.verificationMethod ++ [vmOf b58e did index k] }
        (k.roles.getD []))
      (fun x hx => hall x (List.mem_cons_of_mem _ hx))
    refine ⟨res, ?_⟩
    simp only [addKeys, hpk]
    have hfold : ({ id := keyId did index, type := "ML-DSA-44", controller := did,
                    publicKeyMultibase := "z" ++ b58e pk,
                    revoked := k.revoked.getD false,
                    roles := k.roles.getD [] } : VerificationMethod) =
        vmOf b58e did index k := by
      simp [vmOf, hpk]
    rw [hfold]
    exact hres

/-- A loop over entries succeeds when every entry processes. -/
lemma mapEntries_ok_of {A B : Type} (f : A → Except Unit B) (xs : List A)
    (h : ∀ x ∈ xs, ∃ y, f x = .ok y) : ∃ ys, mapEntries f xs = .ok ys := by
  induction xs with
  | nil => exact ⟨[], rfl⟩
  | cons a as ih =>
    obtain ⟨y, hy⟩ := h a (List.mem_cons_self a as)
    obtain ⟨ys, hys⟩ := ih (fun x hx => h x (List.mem_cons_of_mem _ hx))
    refine ⟨y :: ys, ?_⟩
    simp only [mapEntries, hy, hys]
    rfl

/-- A loop over entries raises when any entry raises. -/
lemma mapEntries_err {A B : Type} (f : A → Except Unit B) (xs : List A)
    (x : A) (hx : x ∈ xs) (hfx : f x = .error ()) :
    mapEntries f xs = .error () := by
  induction xs with
  | nil => cases hx
  | cons a as ih =>
    cases hfa : f a with
    | error e =>
      cases e
      simp only [mapEntries, hfa]
      rfl
    | ok y =>
      have hxs : x ∈ as := by
        rcases List.mem_cons.mp hx with rfl | hmem
        · rw [hfa] at hfx; cases hfx
        · exact hmem
      simp only [mapEntries, hfa, ih hxs]
      rfl

/-- A complete service entry processes to its decoded fields. -/
lemma serviceEntry_ok_of (u : List Nat → String) (s : RawService)
    (h1 : s.id.isSome) (h2 : s.service_type.isSome) (h3 : s.endpoint.isSome) :
    ∃ e, serviceEntry u s = .ok e := by
  cases hid : s.id <;> cases hst : s.service_type <;> cases hep : s.endpoint <;>
    simp_all [serviceEntry]

/-- A service entry with a missing field raises `KeyError`. -/
lemma serviceEntry_err_of (u : List Nat → String) (s : RawService)
    (h : s.id = none ∨ s.service_type = none ∨ s.endpoint = none) :
    serviceEntry u s = .error () := by
  cases hid : s.id <;> cases hst : s.service_type <;> cases hep : s.endpoint <;>
    simp_all [serviceEntry]

/-- A complete metadata entry processes to its decoded fields. -/
lemma metaEntry_ok_of (u : List Nat → String) (m : RawMetaItem)
    (h1 : m.key.isSome) (h2 : m.value.isSome) :
    ∃ e, metaEntry u m = .ok e := by
  cases hk : m.key <;> cases hv : m.value <;> simp_all [metaEntry]

/-- A metadata entry with a missing field raises `KeyError`. -/
lemma metaEntry_err_of (u : List Nat → String) (m : RawMetaItem)
    (h : m.key = none ∨ m.value = none) : metaEntry u m = .error () := by
  cases hk : m.key <;> cases hv : m.value <;> simp_all [metaEntry]

/-- `did_to_document` propagates a failure of the services loop. -/
lemma did_to_document_err_services (utf8d b58e : List Nat → String) (did : String)
    (r : RawRecord)
    (h : mapEntries (serviceEntry utf8d) (r.services.getD []) = .error ()) :
    did_to_document utf8d b58e did r = .error () := by
  unfold did_to_document
  rw [h]
  rfl

/-- `did_to_document` propagates a failure of the metadata loop. -/
lemma did_to_document_err_metadata (utf8d b58e : List Nat → String) (did : String)
    (r : RawRecord) (svs : List ServiceEntry)
    (h1 : mapEntries (serviceEntry utf8d) (r.services.getD []) = .ok svs)
    (h2 : mapEntries (metaEntry utf8d) (r.metadata.getD []) = .error ()) :
    did_to_document utf8d b58e did r = .error () := by
  unfold did_to_document
  rw [h1, h2]
  rfl

/-- With both entry loops successful, `did_to_document` is the key loop run
from the freshly initialized document. -/
lemma did_to_document_step (utf8d b58e : List Nat → String) (did : String)
    (r : RawRecord) (svs : List ServiceEntry) (mds : List MetaEntry)
    (h1 : mapEntries (serviceEntry utf8d) (r.services.getD []) = .ok svs)
    (h2 : mapEntries (metaEntry utf8d) (r.metadata.getD []) = .ok mds) :
    did_to_document utf8d b58e did r =
      addKeys utf8d b58e did 1 (r.keys.getD [])
        { context := ["https://www.w3.org/ns/did/v1"]
          id := did
          version := r.version
          deactivated := r.deactivated
          verificationMethod := []
          authentication := []
          assertionMethod := []
          keyAgreement := []
          capabilityInvocation := []
          capabilityDelegation := []
          service := svs
          metadata := mds } := by
  unfold did_to_document
  rw [h1, h2]
  rfl

/-- Everything a successful resolution determines: the verification-method
list, the five relationship arrays, and the passthrough fields. -/
lemma did_to_document_ok_char (utf8d b58e : List Nat → String) (did : String)
    (r : RawRecord) (doc : DIDDocument)
    (h : did_to_document utf8d b58e did r = .ok doc) :
    ∃ svs mds, mapEntries (serviceEntry utf8d) (r.services.getD []) = .ok svs ∧
      mapEntries (metaEntry utf8d) (r.metadata.getD []) = .ok mds ∧
      doc.verificationMethod = vmsOf b58e did 1 (r.keys.getD []) ∧
      (∀ f, relProj f doc = relOf did f 1 (r.keys.getD [])) ∧
      doc.service = svs ∧
      doc.metadata = mds ∧
      doc.id = did ∧
      doc.version = r.version ∧
      doc.deactivated = r.deactivated ∧
      doc.context = ["https://www.w3.org/ns/did/v1"] := by
  cases h1 : mapEntries (serviceEntry utf8d) (r.services.getD []) with
  | error e =>
    cases e
    rw [did_to_document_err_services utf8d b58e did r h1] at h
    cases h
  | ok svs =>
    cases h2 : mapEntries (metaEntry utf8d) (r.metadata.getD []) with
    | error e =>
      cases e
      rw [did_to_document_err_metadata utf8d b58e did r svs h1 h2] at h
      cases h
    | ok mds =>
      rw [did_to_document_step utf8d b58e did r svs mds h1 h2] at h
      obtain ⟨hvm, hrel, hsv, hmd, hid, hver, hdea, hctx⟩ :=
        addKeys_proj utf8d b58e did (r.keys.getD []) 1 _ doc h
      refine ⟨svs, mds, rfl, rfl, by simpa using hvm, ?_, hsv, hmd, hid, hver,
        hdea, hctx⟩
      intro f
      have hf := hrel f
      cases f <;> simpa using hf

/-- One verification method per raw key. -/
lemma vmsOf_length (b58e : List Nat → String) (did : String) :
    ∀ (ks : List RawKey) (index : Nat), (vmsOf b58e did index ks).length = ks.length := by
  intro ks
  induction ks with
  | nil => intro index; rfl
  | cons k ks ih =>
    intro index
    simp [vmsOf, ih (index + 1)]

/-- The verification method at position `i` comes from the key at position
`i`, with the 1-based id index shifted accordingly. -/
lemma vmsOf_get? (b58e : List Nat → String) (did : String) :
    ∀ (ks : List RawKey) (index i : Nat),
    (vmsOf b58e did index ks).get? i = (ks.get? i).map (vmOf b58e did (index + i)) := by
  intro ks
  induction ks with
  | nil => intro index i; simp [vmsOf]
  | cons k ks ih =>
    intro index i
    cases i with
    | zero => simp [vmsOf]
    | succ i =>
      simp only [vmsOf, List.get?_cons_succ, ih (index + 1) i]
      have harith : index + 1 + i = index + (i + 1) := by omega
      rw [harith]

/-- C7: a resolved document has exactly one verification method per ledger
key, in ledger order, with ids `"<did>#keys-<n>"` recomputed from the 1-based
position; with no keys every relationship array is empty; a single key whose
role set is exactly Authentication and CapabilityDelegation lands in exactly
those two arrays; and resolution succeeds for any role names whatsoever when
the required fields are present (unmapped names are skipped, not errors). -/
theorem C7_resolver_key_enumeration :
    (∀ (utf8d b58e : List Nat → String) (did : String) (r : RawRecord)
      (doc : DIDDocument), did_to_document utf8d b58e did r = .ok doc →
      doc.verificationMethod.length = (r.keys.getD []).length ∧
      (∀ i (hi : i < (r.keys.getD []).length),
        (doc.verificationMethod.get? i).map VerificationMethod.id =
          some (did ++ "#keys-" ++ Nat.repr (i + 1))) ∧
      (r.keys.getD [] = [] → doc.authentication = [] ∧ doc.assertionMethod = [] ∧
        doc.keyAgreement = [] ∧ doc.capabilityInvocation = [] ∧
        doc.capabilityDelegation = []) ∧
      (∀ k, r.keys = some [k] →
        k.roles = some ["Authentication", "CapabilityDelegation"] →
        doc.authentication = [keyId did 1] ∧
        doc.capabilityDelegation = [keyId did 1] ∧
        doc.assertionMethod = [] ∧ doc.keyAgreement = [] ∧
        doc.capabilityInvocation = [])) ∧
    (∀ (utf8d b58e : List Nat → String) (did : String) (r : RawRecord),
      (∀ s ∈ r.services.getD [], s.id.isSome ∧ s.service_type.isSome ∧
        s.endpoint.isSome) →
      (∀ m ∈ r.metadata.getD [], m.key.isSome ∧ m.value.isSome) →
      (∀ k ∈ r.keys.getD [], k.public_key.isSome) →
      ∃ doc, did_to_document utf8d b58e did r = .ok doc) := by
  constructor
  · intro utf8d b58e did r doc h
    obtain ⟨svs, mds, _, _, hvm, hrel, _, _, _, _, _, _⟩ :=
      did_to_document_ok_char utf8d b58e did r doc h
    refine ⟨?_, ?_, ?_, ?_⟩
    · rw [hvm, vmsOf_length]
    · intro i hi
      rw [hvm, vmsOf_get? b58e did (r.keys.getD []) 1 i, List.get?_eq_get hi]
      simp [vmOf, keyId, Nat.add_comm 1 i]
    · intro hks
      refine ⟨?_, ?_, ?_, ?_, ?_⟩
      · have hx := hrel .authentication
        rw [hks] at hx
        simpa [relOf] using hx
      · have hx := hrel .assertionMethod
        rw [hks] at hx
        simpa [relOf] using hx
      · have hx := hrel .keyAgreement
        rw [hks] at hx
        simpa [relOf] using hx
      · have hx := hrel .capabilityInvocation
        rw [hks] at hx
        simpa [relOf] using hx
      · have hx := hrel .capabilityDelegation
        rw [hks] at hx
        simpa [relOf] using hx
    · intro k hk hkr
      have hgd : r.keys.getD [] = [k] := by rw [hk]; rfl
      refine ⟨?_, ?_, ?_, ?_, ?_⟩
      · have hx := hrel .authentication
        rw [hgd] at hx
        simpa [relOf, hkr, role_map] using hx
      · have hx := hrel .capabilityDelegation
        rw [hgd] at hx
        simpa [relOf, hkr, role_map] using hx
      · have hx := hrel .assertionMethod
        rw [hgd] at hx
        simpa [relOf, hkr, role_map] using hx
      · have hx := hrel .keyAgreement
        rw [hgd] at hx
        simpa [relOf, hkr, role_map] using hx
      · have hx := hrel .capabilityInvocation
        rw [hgd] at hx
        simpa [relOf, hkr, role_map] using hx
  · intro utf8d b58e did r hsv hmd hks
    obtain ⟨svs, h1⟩ := mapEntries_ok_of (serviceEntry utf8d) (r.services.getD [])
      (fun s hs => serviceEntry_ok_of utf8d s (hsv s hs).1 (hsv s hs).2.1
        (hsv s hs).2.2)
    obtain ⟨mds, h2⟩ := mapEntries_ok_of (metaEntry utf8d) (r.metadata.getD [])
      (fun m hm => metaEntry_ok_of utf8d m (hmd m hm).1 (hmd m hm).2)
    obtain ⟨res, hres⟩ := addKeys_ok_of utf8d b58e did (r.keys.getD []) 1
      { context := ["https://www.w3.org/ns/did/v1"]
        id := did
        version := r.version
        deactivated := r.deactivated
        verificationMethod := []
        authentication := []
        assertionMethod := []
        keyAgreement := []
        capabilityInvocation := []
        capabilityDelegation := []
        service := svs
        metadata := mds } hks
    refine ⟨res, ?_⟩
    rw [did_to_document_step utf8d b58e did r svs mds h1 h2]
    exact hres

/-- Witness helper: a constant stub for the external UTF-8 / base58 decoders. -/
def u0 : List Nat → String := fun _ => ""

/-- Witness helper: a one-key record whose key holds exactly the roles
Authentication and CapabilityDelegation. -/
def rW : RawRecord :=
  { version := none
    deactivated := none
    keys := some [{ public_key := some [7]
                    revoked := none
                    roles := some ["Authentication", "CapabilityDelegation"] }]
    services := none
    metadata := none }

/-- Witness helper: the document `rW` resolves to under the stub decoders. -/
def docW : DIDDocument :=
  { context := ["https://www.w3.org/ns/did/v1"]
    id := "w"
    version := none
    deactivated := none
    verificationMethod := [{ id := "w#keys-1"
                             type := "ML-DSA-44"
                             controller := "w"
                             publicKeyMultibase := "z"
                             revoked := false
                             roles := ["Authentication", "CapabilityDelegation"] }]
    authentication := ["w#keys-1"]
    assertionMethod := []
    keyAgreement := []
    capabilityInvocation := []
    capabilityDelegation := ["w#keys-1"]
    service := []
    metadata := [] }

/-- Witness for C7 at the one-key record `rW`. -/
theorem C7_resolver_key_enumeration_witness :
    docW.authentication = [keyId "w" 1] ∧
    docW.capabilityDelegation = [keyId "w" 1] ∧
    docW.assertionMethod = [] ∧ docW.keyAgreement = [] ∧
    docW.capabilityInvocation = [] :=
  (C7_resolver_key_enumeration.1 u0 u0 "w" rW docW (by rfl)).2.2.2
    { public_key := some [7]
      revoked := none
      roles := some ["Authentication", "CapabilityDelegation"] } (by rfl) (by rfl)

/-- A record listing a key without `"public_key"` makes `did_to_document`
raise, whatever else the record holds. -/
lemma did_to_document_err_of_bad_key (utf8d b58e : List Nat → String)
    (did : String) (r : RawRecord) (ks : List RawKey) (k : RawKey)
    (hks : r.keys = some ks) (hk : k ∈ ks) (hn : k.public_key = none) :
    did_to_document utf8d b58e did r = .error () := by
  cases h1 : mapEntries (serviceEntry utf8d) (r.services.getD []) with
  | error e =>
    cases e
    exact did_to_document_err_services utf8d b58e did r h1
  | ok svs =>
    cases h2 : mapEntries (metaEntry utf8d) (r.metadata.getD []) with
    | error e =>
      cases e
      exact did_to_document_err_metadata utf8d b58e did r svs h1 h2
    | ok mds =>
      rw [did_to_document_step utf8d b58e did r svs mds h1 h2]
      exact addKeys_err utf8d b58e did (r.keys.getD []) 1 _
        ⟨k, by simp [hks, hk], hn⟩

/-- A record listing a service without one of its three fields makes
`did_to_document` raise. -/
lemma did_to_document_err_of_bad_service (utf8d b58e : List Nat → String)
    (did : String) (r : RawRecord) (ss : List RawService) (s : RawService)
    (hss : r.services = some ss) (hs : s ∈ ss)
    (hbad : s.id = none ∨ s.service_type = none ∨ s.endpoint = none) :
    did_to_document utf8d b58e did r = .error () :=
  did_to_document_err_services utf8d b58e did r
    (mapEntries_err (serviceEntry utf8d) (r.services.getD []) s
      (by simp [hss, hs]) (serviceEntry_err_of utf8d s hbad))

/-- `resolve_did` forwards an exception from `did_to_document` on a truthy
record. -/
lemma resolve_record_err (utf8d b58e : List Nat → String) (did : String)
    (r : RawRecord) (ht : r.isTruthy = true)
    (hd : did_to_document utf8d b58e did r = .error ()) :
    resolve_did utf8d b58e did (.dict (.record r)) = .error () := by
  simp only [resolve_did, ht, hd, if_true]
  rfl

/-- C2 (amended): `resolve_did` does return "not found" for a non-dict
response and for an absent or falsy `result`; but on a record whose key
entry lacks `"public_key"`, or whose service entry lacks `"id"`,
`"service_type"` or `"endpoint"`, resolution raises `KeyError` instead of
yielding "not found" (only missing top-level lists and missing per-key
`revoked` / `roles` fields default safely). -/
theorem C2_resolver_never_raises (utf8d b58e : List Nat → String) (did : String) :
    resolve_did utf8d b58e did .notDict = .ok none ∧
    resolve_did utf8d b58e did (.dict .absent) = .ok none ∧
    resolve_did utf8d b58e did (.dict .falsy) = .ok none ∧
    (∀ r : RawRecord, r.isTruthy = false →
      resolve_did utf8d b58e did (.dict (.record r)) = .ok none) ∧
    (∀ (r : RawRecord) (ks : List RawKey) (k : RawKey), r.keys = some ks →
      k ∈ ks → k.public_key = none →
      resolve_did utf8d b58e did (.dict (.record r)) = .error ()) ∧
    (∀ (r : RawRecord) (ss : List RawService) (s : RawService),
      r.services = some ss → s ∈ ss →
      (s.id = none ∨ s.service_type = none ∨ s.endpoint = none) →
      resolve_did utf8d b58e did (.dict (.record r)) = .error ()) := by
  refine ⟨rfl, rfl, rfl, ?_, ?_, ?_⟩
  · intro r ht
    simp [resolve_did, ht]
  · intro r ks k hks hk hn
    exact resolve_record_err utf8d b58e did r
      (by simp [RawRecord.isTruthy, hks])
      (did_to_document_err_of_bad_key utf8d b58e did r ks k hks hk hn)
  · intro r ss s hss hs hbad
    exact resolve_record_err utf8d b58e did r
      (by simp [RawRecord.isTruthy, hss])
      (did_to_document_err_of_bad_service utf8d b58e did r ss s hss hs hbad)

/-- Counterexample to C2 as stated: the truthy record `{"keys": [{}]}` — a
key entry without `"public_key"` — makes resolution raise `KeyError`
(`.error ()`), not return "not found". -/
theorem C2_resolver_never_raises_counterexample :
    resolve_did u0 u0 "did:qsb:x"
      (.dict (.record { version := none
                        deactivated := none
                        keys := some [{ public_key := none
                                        revoked := none
                                        roles := none }]
                        services := none
                        metadata := none })) = .error () := by
  rfl

/-- Witness for C2 at a record whose only service entry lacks `"id"`. -/
theorem C2_resolver_never_raises_witness :
    resolve_did u0 u0 "did:qsb:x"
      (.dict (.record { version := none
                        deactivated := none
                        keys := none
                        services := some [{ id := none
                                            service_type := some [1]
                                            endpoint := some [2] }]
                        metadata := none })) = .error () :=
  (C2_resolver_never_raises u0 u0 "did:qsb:x").2.2.2.2.2
    { version := none, deactivated := none, keys := none
      services := some [{ id := none, service_type := some [1]
                          endpoint := some [2] }]
      metadata := none }
    [{ id := none, service_type := some [1], endpoint := some [2] }]
    { id := none, service_type := some [1], endpoint := some [2] }
    (by rfl) (by simp) (Or.inl rfl)

/-- If the key loop succeeded, every key had a `"public_key"` field. -/
lemma addKeys_all_some (utf8d b58e : List Nat → String) (did : String) :
    ∀ (ks : List RawKey) (index : Nat) (doc res : DIDDocument),
    addKeys utf8d b58e did index ks doc = .ok res →
    ∀ k ∈ ks, k.public_key.isSome := by
  intro ks
  induction ks with
  | nil => intro index doc res _ k hk; cases hk
  | cons k ks ih =>
    intro index doc res h k' hk'
    cases hpk : k.public_key with
    | none => simp [addKeys, hpk] at h
    | some pk =>
      simp only [addKeys, hpk] at h
      rcases List.mem_cons.mp hk' with rfl | hmem
      · simp [hpk]
      · exact ih (index + 1) _ res h k' hmem

/-- Replacing one key by a key with the same roles leaves every relationship
array contribution unchanged. -/
lemma relOf_set (did : String) (f : RoleField) :
    ∀ (ks : List RawKey) (i : Nat) (k' : RawKey) (index : Nat),
    (∀ hi : i < ks.length, k'.roles = (ks.get ⟨i, hi⟩).roles) →
    relOf did f index (ks.set i k') = relOf did f index ks := by
  intro ks
  induction ks with
  | nil => intro i k' index _; simp
  | cons k ks ih =>
    intro i k' index hroles
    cases i with
    | zero =>
      have hr := hroles (by simp)
      simp only [List.set_cons_zero, relOf]
      rw [hr]
      rfl
    | succ i =>
      simp only [List.set_cons_succ, relOf]
      rw [ih i k' (index + 1) (fun hi => hroles (by simpa using Nat.succ_lt_succ hi))]

/-- Replacing one key replaces exactly the matching verification method. -/
lemma vmsOf_set (b58e : List Nat → String) (did : String) :
    ∀ (ks : List RawKey) (i : Nat) (k' : RawKey) (index : Nat),
    vmsOf b58e did index (ks.set i k') =
      (vmsOf b58e did index ks).set i (vmOf b58e did (index + i) k') := by
  intro ks
  induction ks with
  | nil => intro i k' index; simp [vmsOf]
  | cons k ks ih =>
    intro i k' index
    cases i with
    | zero => simp [vmsOf]
    | succ i =>
      simp only [List.set_cons_succ, vmsOf, ih i k' (index + 1)]
      have harith : index + 1 + i = index + (i + 1) := by omega
      rw [harith]

/-- A key with a role mapping to array `f` puts its key id into that
array's contribution. -/
lemma relOf_mem (did : String) (f : RoleField) :
    ∀ (ks : List RawKey) (i : Nat) (index : Nat) (hi : i < ks.length),
    (∃ ro ∈ (ks.get ⟨i, hi⟩).roles.getD [], role_map ro = some f) →
    keyId did (index + i) ∈ relOf did f index ks := by
  intro ks
  induction ks with
  | nil => intro i index hi; simp at hi
  | cons k ks ih =>
    intro i index hi hro
    cases i with
    | zero =>
      obtain ⟨ro, hmem, hmap⟩ := hro
      simp only [relOf, Nat.add_zero]
      apply List.mem_append_left
      apply List.mem_map.mpr
      refine ⟨ro, ?_, rfl⟩
      exact List.mem_filter.mpr ⟨hmem, by simp [hmap]⟩
    | succ i =>
      have hi' : i < ks.length := by simpa using Nat.lt_of_succ_lt_succ hi
      have := ih i (index + 1) hi' (by simpa using hro)
      simp only [relOf]
      apply List.mem_append_right
      have harith : index + 1 + i = index + (i + 1) := by omega
      rwa [harith] at this

/-- C10: in `did_to_document` the `revoked` flag of a key influences nothing
but that key's own `verificationMethod` entry: changing it keeps resolution
successful, keeps every relationship array, service, metadata and passthrough
field identical, keeps every other verification method identical, and keeps
the affected entry identical except for its `revoked` field; in particular a
revoked key's id still appears in every relationship array matching its
roles. -/
theorem C10_revoked_flag_no_influence (utf8d b58e : List Nat → String)
    (did : String) (r : RawRecord) (ks : List RawKey) (i : Nat)
    (rv : Option Bool) (k' : RawKey) (r' : RawRecord)
    (hks : r.keys = some ks) (hi : i < ks.length)
    (hk' : k' = { public_key := (ks.get ⟨i, hi⟩).public_key
                  revoked := rv
                  roles := (ks.get ⟨i, hi⟩).roles })
    (hr' : r' = { r with keys := some (ks.set i k') })
    (d : DIDDocument) (hd : did_to_document utf8d b58e did r = .ok d) :
    (∃ d', did_to_document utf8d b58e did r' = .ok d') ∧
    (∀ d', did_to_document utf8d b58e did r' = .ok d' →
      d'.authentication = d.authentication ∧
      d'.assertionMethod = d.assertionMethod ∧
      d'.keyAgreement = d.keyAgreement ∧
      d'.capabilityInvocation = d.capabilityInvocation ∧
      d'.capabilityDelegation = d.capabilityDelegation ∧
      d'.service = d.service ∧
      d'.metadata = d.metadata ∧
      d'.id = d.id ∧
      d'.version = d.version ∧
      d'.deactivated = d.deactivated ∧
      d'.verificationMethod.length = d.verificationMethod.length ∧
      (∀ j, j ≠ i → d'.verificationMethod.get? j = d.verificationMethod.get? j) ∧
      (d'.verificationMethod.get? i).map
          (fun v => (v.id, v.type, v.controller, v.publicKeyMultibase, v.roles)) =
        (d.verificationMethod.get? i).map
          (fun v => (v.id, v.type, v.controller, v.publicKeyMultibase, v.roles)) ∧
      (d'.verificationMethod.get? i).map VerificationMethod.revoked =
        some (rv.getD false) ∧
      (∀ f, (∃ ro ∈ (ks.get ⟨i, hi⟩).roles.getD [], role_map ro = some f) →
        keyId did (1 + i) ∈ relProj f d')) := by
  subst hk' hr'
  obtain ⟨svs, mds, h1, h2, hvm, hrel, hsv, hmd, hid, hver, hdea, hctx⟩ :=
    did_to_document_ok_char utf8d b58e did r d hd
  have hgd : r.keys.getD [] = ks := by rw [hks]; rfl
  have hall : ∀ k ∈ ks, k.public_key.isSome := by
    rw [did_to_document_step utf8d b58e did r svs mds h1 h2] at hd
    intro k hk
    exact addKeys_all_some utf8d b58e did (r.keys.getD []) 1 _ d hd k
      (by rw [hgd]; exact hk)
  have hall' : ∀ k ∈ ks.set i
      { public_key := (ks.get ⟨i, hi⟩).public_key
        revoked := rv
        roles := (ks.get ⟨i, hi⟩).roles }, k.public_key.isSome := by
    intro k hk
    rcases List.mem_or_eq_of_mem_set hk with hmem | rfl
    · exact hall k hmem
    · exact hall (ks.get ⟨i, hi⟩) (List.get_mem ks i hi)
  constructor
  · obtain ⟨res, hres⟩ := addKeys_ok_of utf8d b58e did
      (ks.set i { public_key := (ks.get ⟨i, hi⟩).public_key
                  revoked := rv
                  roles := (ks.get ⟨i, hi⟩).roles }) 1
      { context := ["https://www.w3.org/ns/did/v1"]
        id := did
        version := r.version
        deactivated := r.deactivated
        verificationMethod := []
        authentication := []
        assertionMethod := []
        keyAgreement := []
        capabilityInvocation := []
        capabilityDelegation := []
        service := svs
        metadata := mds } hall'
    refine ⟨res, ?_⟩
    rw [did_to_document_step utf8d b58e did
      { version := r.version
        deactivated := r.deactivated
        keys := some (ks.set i { public_key := (ks.get ⟨i, hi⟩).public_key
                                 revoked := rv
                                 roles := (ks.get ⟨i, hi⟩).roles })
        services := r.services
        metadata := r.metadata } svs mds h1 h2]
    exact hres
  · intro d' hd'
    obtain ⟨svs', mds', h1', h2', hvm', hrel', hsv', hmd', hid', hver', hdea',
      hctx'⟩ := did_to_document_ok_char utf8d b58e did _ d' hd'
    have hsvs : svs' = svs := Except.ok.inj (h1'.symm.trans h1)
    have hmds : mds' = mds := Except.ok.inj (h2'.symm.trans h2)
    have hkeq : ∀ f, relProj f d' = relProj f d := by
      intro f
      rw [hrel' f, hrel f, hgd,
        show ({ r with keys := some (ks.set i _) } : RawRecord).keys.getD [] =
          ks.set i { public_key := (ks.get ⟨i, hi⟩).public_key
                     revoked := rv
                     roles := (ks.get ⟨i, hi⟩).roles } from rfl]
      exact relOf_set did f ks i _ 1 (fun _ => rfl)
    have hvmeq : d'.verificationMethod =
        (vmsOf b58e did 1 ks).set i
          (vmOf b58e did (1 + i)
            { public_key := (ks.get ⟨i, hi⟩).public_key
              revoked := rv
              roles := (ks.get ⟨i, hi⟩).roles }) := by
      rw [hvm',
        show ({ r with keys := some (ks.set i _) } : RawRecord).keys.getD [] =
          ks.set i { public_key := (ks.get ⟨i, hi⟩).public_key
                     revoked := rv
                     roles := (ks.get ⟨i, hi⟩).roles } from rfl]
      exact vmsOf_set b58e did ks i _ 1
    have hvmd : d.verificationMethod = vmsOf b58e did 1 ks := by rw [hvm, hgd]
    have hlen : i < (vmsOf b58e did 1 ks).length := by
      rw [vmsOf_length]
      exact hi
    refine ⟨hkeq .authentication, hkeq .assertionMethod, hkeq .keyAgreement,
      hkeq .capabilityInvocation, hkeq .capabilityDelegation,
      by rw [hsv', hsvs, hsv], by rw [hmd', hmds, hmd],
      by rw [hid', hid], by rw [hver', hver], by rw [hdea', hdea],
      ?_, ?_, ?_, ?_, ?_⟩
    · rw [hvmeq, hvmd, List.length_set]
    · intro j hj
      rw [hvmeq, hvmd]
      simp only [List.get?_eq_getElem?]
      exact List.getElem?_set_ne (Ne.symm hj)
    · rw [hvmeq, hvmd]
      simp only [List.get?_eq_getElem?]
      rw [List.getElem?_set_self hlen]
      rw [← List.get?_eq_getElem?, vmsOf_get? b58e did ks 1 i,
        List.get?_eq_get hi]
      rfl
    · rw [hvmeq]
      simp only [List.get?_eq_getElem?]
      rw [List.getElem?_set_self hlen]
      rfl
    · intro f hro
      rw [hkeq f, hrel f, hgd]
      exact relOf_mem did f ks i 1 hi hro

/-- Witness helper: `docW` with the key's `revoked` flag flipped on. -/
def docWr : DIDDocument :=
  { context := ["https://www.w3.org/ns/did/v1"]
    id := "w"
    version := none
    deactivated := none
    verificationMethod := [{ id := "w#keys-1"
                             type := "ML-DSA-44"
                             controller := "w"
                             publicKeyMultibase := "z"
                             revoked := true
                             roles := ["Authentication", "CapabilityDelegation"] }]
    authentication := ["w#keys-1"]
    assertionMethod := []
    keyAgreement := []
    capabilityInvocation := []
    capabilityDelegation := ["w#keys-1"]
    service := []
    metadata := [] }

/-- Witness for C10: flipping the single key's `revoked` flag in `rW` keeps
the relationship arrays and changes only the entry's `revoked` field. -/
theorem C10_revoked_flag_no_influence_witness :
    docWr.authentication = docW.authentication ∧
    (docWr.verificationMethod.get? 0).map VerificationMethod.revoked =
      some true := by
  have h := (C10_revoked_flag_no_influence u0 u0 "w" rW
    [{ public_key := some [7]
       revoked := none
       roles := some ["Authentication", "CapabilityDelegation"] }] 0 (some true)
    { public_key := some [7]
      revoked := some true
      roles := some ["Authentication", "CapabilityDelegation"] }
    { version := none
      deactivated := none
      keys := some [{ public_key := some [7]
                      revoked := some true
                      roles := some ["Authentication", "CapabilityDelegation"] }]
      services := none
      metadata := none }
    (by rfl) (by simp) (by rfl) (by rfl) docW (by rfl)).2 docWr (by rfl)
  exact ⟨h.1, h.2.2.2.2.2.2.2.2.2.2.2.2.2.1⟩

/-! ## Key store lemmas -/

/-- One hex digit survives the encode/decode pair. -/
lemma hexDigitVal_hexDigitChar : ∀ n < 16, hexDigitVal (hexDigitChar n) = some n := by
  decide

/-- `bytes.fromhex` inverts `bytes.hex()` on byte strings. -/
lemma hexBytes_bytes_hex (bs : List Nat) (h : ∀ b ∈ bs, b < 256) :
    hexBytes (bytes_hex bs) = some bs := by
  induction bs with
  | nil => rfl
  | cons b bs ih =>
    have hb := h b (List.mem_cons_self b bs)
    have e1 := hexDigitVal_hexDigitChar (b / 16) (by omega)
    have e2 := hexDigitVal_hexDigitChar (b % 16) (by omega)
    have e3 := ih (fun x hx => h x (List.mem_cons_of_mem _ hx))
    simp only [bytes_hex, hexBytes, e1, e2, e3, Option.bind_some]
    have : 16 * (b / 16) + b % 16 = b := by omega
    simp [this]

/-- C8: with the library's contracts — authenticated encryption decrypts its
own tokens under the same key and rejects any other key, the KDF separates
passwords, base64 is injective — a store/load round trip with the correct
password returns `(did, public_key, private_key)` unchanged, while any other
password fails with `DecryptionFailed` (no wrong key material escapes). -/
theorem C8_store_roundtrip
    (kdfDerive : String → List Nat → List Nat)
    (b64url : List Nat → List Nat)
    (fernetEnc : List Nat → List Nat → List Nat)
    (fernetDec : List Nat → List Nat → Option (List Nat))
    (hdec : ∀ key m, fernetDec key (fernetEnc key m) = some m)
    (hrobust : ∀ key key' m, key ≠ key' → fernetDec key' (fernetEnc key m) = none)
    (hkdf : ∀ p p' s, p ≠ p' → kdfDerive p s ≠ kdfDerive p' s)
    (hb64 : ∀ x y, x ≠ y → b64url x ≠ b64url y)
    (did : String) (public_key private_key salt : List Nat) (password : String)
    (hpub : ∀ b ∈ public_key, b < 256) (hsalt : ∀ b ∈ salt, b < 256) :
    decrypt_private_key kdfDerive b64url fernetDec
      (encrypt_private_key kdfDerive b64url fernetEnc private_key password salt)
      password salt = some private_key ∧
    load_did_keys kdfDerive b64url fernetDec
      (store_did_keys kdfDerive b64url fernetEnc did public_key private_key
        password salt) password = some (did, public_key, private_key) ∧
    (∀ password', password' ≠ password →
      decrypt_private_key kdfDerive b64url fernetDec
        (encrypt_private_key kdfDerive b64url fernetEnc private_key password salt)
        password' salt = none ∧
      load_did_keys kdfDerive b64url fernetDec
        (store_did_keys kdfDerive b64url fernetEnc did public_key private_key
          password salt) password' = none) := by
  have hwrong : ∀ password', password' ≠ password →
      decrypt_private_key kdfDerive b64url fernetDec
        (encrypt_private_key kdfDerive b64url fernetEnc private_key password salt)
        password' salt = none := by
    intro password' hne
    unfold decrypt_private_key encrypt_private_key
    exact hrobust _ _ private_key
      (fun hkeys => hb64 _ _ (hkdf password password' salt (Ne.symm hne)) hkeys)
  refine ⟨hdec _ _, ?_, ?_⟩
  · unfold load_did_keys store_did_keys
    simp only [bytes_fromhex, hexBytes_bytes_hex salt hsalt,
      hexBytes_bytes_hex public_key hpub, Option.bind_some]
    simp [decrypt_private_key, encrypt_private_key, hdec]
  · intro password' hne
    refine ⟨hwrong password' hne, ?_⟩
    unfold load_did_keys store_did_keys
    simp only [bytes_fromhex, hexBytes_bytes_hex salt hsalt, Option.bind_some]
    simp [hwrong password' hne]

/-- `Char.toNat` is injective. -/
lemma char_toNat_inj : Function.Injective Char.toNat := by
  intro a b h
  exact Char.eq_of_val_eq (UInt32.toNat.inj h)

/-- `ascii` is injective, so it can serve as a witness KDF. -/
lemma ascii_inj : Function.Injective ascii := by
  intro a b h
  exact String.ext (List.map_injective_iff.mpr char_toNat_inj h)

/-- Witness stand-in for PBKDF2: the password's bytes (salt ignored). -/
def kdfW : String → List Nat → List Nat := fun p _ => ascii p

/-- Witness stand-in for Fernet encryption: key length, key, then message. -/
def encW : List Nat → List Nat → List Nat := fun key m => key.length :: (key ++ m)

/-- Witness stand-in for Fernet decryption: check the embedded key, strip it. -/
def decW : List Nat → List Nat → Option (List Nat) := fun key c =>
  match c with
  | [] => none
  | n :: rest =>
    if n = key.length ∧ rest.take key.length = key then
      some (rest.drop key.length)
    else none

/-- The witness scheme decrypts its own tokens. -/
lemma decW_encW (key m : List Nat) : decW key (encW key m) = some m := by
  simp [decW, encW, List.take_left, List.drop_left]

/-- The witness scheme rejects tokens made under a different key. -/
lemma decW_encW_ne (key key' m : List Nat) (h : key ≠ key') :
    decW key' (encW key m) = none := by
  simp only [decW, encW]
  rw [if_neg]
  rintro ⟨hlen, htake⟩
  rw [← hlen, List.take_left] at htake
  exact h htake

/-- Witness for C8 at `did = "did:qsb:w"`, `public_key = [1, 2]`,
`private_key = [3, 4]`, `salt = [5]`, password `"x"` versus `"y"`. -/
theorem C8_store_roundtrip_witness :
    load_did_keys kdfW id decW
      (store_did_keys kdfW id encW "did:qsb:w" [1, 2] [3, 4] "x" [5]) "x" =
      some ("did:qsb:w", [1, 2], [3, 4]) ∧
    load_did_keys kdfW id decW
      (store_did_keys kdfW id encW "did:qsb:w" [1, 2] [3, 4] "x" [5]) "y" =
      none := by
  have h := C8_store_roundtrip kdfW id encW decW
    (fun key m => decW_encW key m)
    (fun key key' m hne => decW_encW_ne key key' m hne)
    (fun p p' s hne hk => hne (ascii_inj hk))
    (fun x y hne hxy => hne hxy)
    "did:qsb:w" [1, 2] [3, 4] [5] "x" (by decide) (by decide)
  exact ⟨h.2.1, (h.2.2 "y" (by decide)).2⟩
